import Mathlib

/-!
Verification development for the mesh-loader library (STL / Wavefront OBJ /
COLLADA ingestion).  The definitions below are a shallow embedding of the
library's Rust sources:

* byte slices are `List Nat` (each element a byte value `< 256`);
* machine integers are `Nat`/`Int` with explicit `% 2 ^ w` where the source
  relies on wrapping;
* `f32` values are modelled as exact rationals (`ℚ`): the decimal-literal
  front end of the float parser (`utils/float/parse.rs`) is embedded
  faithfully for its byte-consumption behaviour, while the numeric value is
  the exact decimal value rather than the IEEE-754 rounding of it (the
  claims settled here depend on counts, indices and exact small constants,
  never on rounding);
* fallible code returns `Option`/`Except`; Rust `panic!`/`assert!` is a
  distinguished `Except` error so that "returns an error" and "panics" stay
  distinguishable.

Loops are embedded as fuelled recursion; each parser consumes at least one
byte per iteration, so `fuel = input length + 1` is always sufficient and
the entry points pass exactly that.
-/

namespace MeshLoader

/-- 2^64, the modulus for wrapping `u64` arithmetic. -/
def M64 : Nat := 18446744073709551616

/-- 2^32, the modulus for wrapping `u32` arithmetic. -/
def M32 : Nat := 4294967296

/-- Wrapping `u64` addition (`u64::wrapping_add`). -/
def wadd64 (a b : Nat) : Nat := (a + b) % M64

/-- Wrapping `u64` multiplication (`u64::wrapping_mul`). -/
def wmul64 (a b : Nat) : Nat := (a * b) % M64

/-- Wrapping `u64` subtraction (`u64::wrapping_sub`). -/
def wsub64 (a b : Nat) : Nat := (a + M64 - b % M64) % M64

/-- Truncating cast `u64 as uN` for an `N`-bit type: keep the low `N` bits. -/
def truncCast (bits : Nat) (n : Nat) : Nat := n % 2 ^ bits

/-- Two's-complement reading of the low `bits` bits, as used for `as iN`
casts: result lies in `[-2^(bits-1), 2^(bits-1))`. -/
def toSigned (bits : Nat) (n : Nat) : Int :=
  let m := n % 2 ^ bits
  if m < 2 ^ (bits - 1) then (m : Int) else (m : Int) - 2 ^ bits

/-- Wrapping signed arithmetic: reduce an exact `Int` into the
two's-complement range of an `bits`-bit signed integer. -/
def wrapSigned (bits : Nat) (z : Int) : Int :=
  ((z + 2 ^ (bits - 1)) % (2 ^ bits : Nat)) - 2 ^ (bits - 1)

/-- `u64::from_ne_bytes` on a little-endian host: assemble 8 bytes,
least-significant first. -/
def u64FromLeBytes (b0 b1 b2 b3 b4 b5 b6 b7 : Nat) : Nat :=
  b0 + b1 * 256 + b2 * 256 ^ 2 + b3 * 256 ^ 3 + b4 * 256 ^ 4 + b5 * 256 ^ 5 +
    b6 * 256 ^ 6 + b7 * 256 ^ 7

/-- Bytes of an ASCII string, used to write concrete test inputs. -/
def bytesOfAscii (s : String) : List Nat := s.data.map Char.toNat

-- ---------------------------------------------------------------------------
-- utils/int.rs: integer parser (Rust port of fast_float's integer parser)
-- ---------------------------------------------------------------------------

/-- `utils/int.rs` `is_made_of_8digits_fast`: SWAR check that all 8 bytes of
a `u64` word are ASCII digits. -/
def isMadeOf8DigitsFast (v : Nat) : Bool :=
  (wadd64 v 0x4646464646464646 ||| wsub64 v 0x3030303030303030) &&&
      0x8080808080808080 == 0

/-- `utils/int.rs` `parse_8digits_unrolled`: SWAR conversion of 8 ASCII
digit bytes (little-endian in `v`) to their numeric value. -/
def parse8DigitsUnrolled (v : Nat) : Nat :=
  let mask : Nat := 0x000000FF000000FF
  let mul1 : Nat := 0x000F424000000064
  let mul2 : Nat := 0x0000271000000001
  let v := wsub64 v 0x3030303030303030
  let v := wadd64 (wmul64 v 10) (v >>> 8)
  truncCast 32
    (wadd64 (wmul64 (v &&& mask) mul1) (wmul64 ((v >>> 16) &&& mask) mul2) >>> 32)

/-- `utils/int.rs` `loop_parse_if_8digits`: repeatedly consume 8-digit
chunks, accumulating into the wrapping `u64` accumulator `n`.
Returns `(remaining bytes, digitCount, n)`. -/
def loopParseIf8Digits : List Nat → Nat → Nat → (List Nat × Nat × Nat)
  | b0 :: b1 :: b2 :: b3 :: b4 :: b5 :: b6 :: b7 :: rest, digitCount, n =>
    let v := u64FromLeBytes b0 b1 b2 b3 b4 b5 b6 b7
    if isMadeOf8DigitsFast v then
      loopParseIf8Digits rest (digitCount + 8)
        (wadd64 (wmul64 n 100000000) (parse8DigitsUnrolled v))
    else
      (b0 :: b1 :: b2 :: b3 :: b4 :: b5 :: b6 :: b7 :: rest, digitCount, n)
  | bytes, digitCount, n => (bytes, digitCount, n)

/-- The per-byte digit loop shared by the `uint!`/`int!` macros: consume
ASCII digits into the wrapping `u64` accumulator, stopping at the first
non-digit. Returns `(digitCount, n)` for the trailing loop only. -/
def digitLoop : List Nat → Nat → Nat → (Nat × Nat)
  | [], digitCount, n => (digitCount, n)
  | b :: rest, digitCount, n =>
    -- digit = b.wrapping_sub(b'0'); if digit >= BASE { break }
    let digit := (b + 256 - 48) % 256
    if digit ≥ 10 then (digitCount, n)
    else digitLoop rest (digitCount + 1) (wadd64 (wmul64 n 10) digit)

/-- Fuelled helper for `maxDigitCount` (the `while max > 0` loop; the fuel
`m` itself bounds the iteration count). -/
def maxDigitCountAux : Nat → Nat → Nat
  | 0, _ => 0
  | fuel + 1, m => if m = 0 then 0 else maxDigitCountAux fuel (m / 10) + 1

/-- `max_digit_count!` for a type with maximum value `m`. -/
def maxDigitCount (m : Nat) : Nat := maxDigitCountAux m m

/-- Shared digit-accumulation phase after sign/zero stripping: the optional
8-digit SWAR loop (only when the target's max digit count is ≥ 8) followed
by the per-byte loop. -/
def accumDigits (maxDigits : Nat) (bytes : List Nat) : Nat × Nat :=
  let (bytes, digitCount, n) :=
    if maxDigits ≥ 8 then loopParseIf8Digits bytes 0 0 else (bytes, 0, 0)
  digitLoop bytes digitCount n

/-- Count of leading `'0'` bytes (the `while let Some(&b'0') = bytes.get(0)`
loop); returns `(count, rest)`. -/
def skipLeadingZeros : List Nat → Nat × List Nat
  | 48 :: rest => let (c, r) := skipLeadingZeros rest; (c + 1, r)
  | bytes => (0, bytes)

/-- `utils/int.rs` `uint!` macro body: `parse_partial` for an unsigned type
with maximum value `tyMax` and width `bits`.  Returns the parsed value
(after the `n as $ty` truncating cast) and the consumed byte count. -/
def uintParsePartial (tyMax bits : Nat) (bytes : List Nat) : Option (Nat × Nat) :=
  let maxDigits := maxDigitCount tyMax
  let limit := 10 ^ (maxDigits - 1)
  let (hasSign, bytes) :=
    match bytes with
    | 43 :: rest => (true, rest)
    | _ => (false, bytes)
  let (start, bytes) := skipLeadingZeros bytes
  let (digitCount, n) := accumDigits maxDigits bytes
  if digitCount = 0 ∧ start = 0 then none
  else if digitCount > maxDigits then none
  else if digitCount = maxDigits ∧ n < limit then none
  else some (truncCast bits n, (if hasSign then 1 else 0) + start + digitCount)

/-- `utils/int.rs` `int!` macro body: `parse_partial` for a signed type with
maximum value `tyMax` and width `bits`. -/
def intParsePartial (tyMax : Nat) (bits : Nat) (bytes : List Nat) :
    Option (Int × Nat) :=
  let maxDigits := maxDigitCount tyMax
  let limit := 10 ^ (maxDigits - 1)
  let (hasSign, negative, bytes) :=
    match bytes with
    | 45 :: rest => (true, true, rest)
    | 43 :: rest => (true, false, rest)
    | _ => (false, false, bytes)
  let (start, bytes) := skipLeadingZeros bytes
  let (digitCount, n) := accumDigits maxDigits bytes
  if digitCount = 0 ∧ start = 0 then none
  else if digitCount > maxDigits then none
  else if digitCount = maxDigits ∧ n < limit then none
  else
    let v : Int :=
      if negative then
        -- (-$ty::MAX).wrapping_sub((n.wrapping_sub($ty::MAX as u64)) as $ty)
        wrapSigned bits (-(tyMax : Int) - toSigned bits (wsub64 n tyMax))
      else
        -- n as $ty
        toSigned bits n
    some (v, (if hasSign then 1 else 0) + start + digitCount)

/-- `Int::parse`: succeed only when the whole input is consumed
(unsigned flavour). -/
def uintParse (tyMax bits : Nat) (bytes : List Nat) : Option Nat :=
  match uintParsePartial tyMax bits bytes with
  | some (v, n) => if n = bytes.length then some v else none
  | none => none

/-- `Int::parse`: succeed only when the whole input is consumed
(signed flavour). -/
def intParse (tyMax bits : Nat) (bytes : List Nat) : Option Int :=
  match intParsePartial tyMax bits bytes with
  | some (v, n) => if n = bytes.length then some v else none
  | none => none

/-- `u8::parse` (`uint!(u8)` instantiation). -/
def u8Parse (bytes : List Nat) : Option Nat := uintParse 255 8 bytes

/-- `u32::parse` (`uint!(u32)` instantiation). -/
def u32Parse (bytes : List Nat) : Option Nat := uintParse 4294967295 32 bytes

/-- `u64::parse` (`uint!(u64)` instantiation). -/
def u64Parse (bytes : List Nat) : Option Nat :=
  uintParse 18446744073709551615 64 bytes

/-- `i32::parse` (`int!(i32)` instantiation). -/
def i32Parse (bytes : List Nat) : Option Int := intParse 2147483647 32 bytes

/-- `i32::parse_partial` (used by the OBJ face parser). -/
def i32ParsePartial (bytes : List Nat) : Option (Int × Nat) :=
  intParsePartial 2147483647 32 bytes

/-- `i64::parse` (`int!(i64)` instantiation). -/
def i64Parse (bytes : List Nat) : Option Int :=
  intParse 9223372036854775807 64 bytes

-- ---------------------------------------------------------------------------
-- utils/float: decimal-literal front end (`utils/float/parse.rs`,
-- `utils/float/mod.rs` `dec2flt`).
--
-- The byte-consumption behaviour (which bytes a parse consumes, and whether
-- it succeeds) is embedded faithfully from `parse_partial_number` /
-- `parse_scientific` / `parse_inf_nan`.  The numeric result is idealized as
-- the exact rational value of the decimal literal instead of its IEEE-754
-- rounding (Eisel-Lemire/slow path); `inf`/`nan` results are idealized as 0
-- since ℚ has no non-finite values.  The SWAR 8-digit loop of
-- `try_parse_digits` consumes exactly the maximal run of ASCII digits, as
-- does the per-byte loop, so digit consumption is embedded as one loop.
-- ---------------------------------------------------------------------------

/-- Maximal run of ASCII digits: returns `(exact value, digit count, rest)`
(`try_parse_digits`, with the exact accumulated value). -/
def parseDigitsRun : List Nat → (Nat × Nat × List Nat)
  | b :: rest =>
    if 48 ≤ b ∧ b ≤ 57 then
      let (v, c, r) := parseDigitsRun rest
      -- value of the whole run: this digit is the most significant of the run
      (((b - 48) * 10 ^ c + v), c + 1, r)
    else (0, 0, b :: rest)
  | [] => (0, 0, [])

/-- 10^e for an integer exponent, in ℚ. -/
def qpow10 (e : Int) : ℚ :=
  if 0 ≤ e then ((10 : ℚ) ^ e.toNat) else ((10 : ℚ) ^ (-e).toNat)⁻¹

/-- `parse_scientific`: parse the `e`/`E` exponent suffix (sign then at
least one digit), saturating the accumulated exponent at `0x10000` exactly
as the source does. Returns the (signed) exponent and the rest. -/
def parseScientific (s : List Nat) : Option (Int × List Nat) :=
  let (negative, s) :=
    match s with
    | 45 :: rest => (true, rest)
    | 43 :: rest => (false, rest)
    | rest => (false, rest)
  match s with
  | b :: _ =>
    if 48 ≤ b ∧ b ≤ 57 then
      let rec go : List Nat → Int → (Int × List Nat)
        | c :: rest, acc =>
          if 48 ≤ c ∧ c ≤ 57 then
            go rest (if acc < 0x10000 then 10 * acc + (c - 48 : Nat) else acc)
          else (acc, c :: rest)
        | [], acc => (acc, [])
      let (e, rest) := go s 0
      some (if negative then -e else e, rest)
    else none
  | [] => none

/-- `parse_partial_number` (value idealized to exact ℚ): returns
`(value magnitude, consumed bytes of the number part)` on success.  The
consumed count excludes the sign, which `dec2flt` strips first. -/
def parsePartialNumber (s : List Nat) : Option (ℚ × Nat) :=
  let (intVal, intCnt, s1) := parseDigitsRun s
  let (fracVal, fracCnt, dotLen, s2) :=
    match s1 with
    | 46 :: rest =>
      let (v, c, r) := parseDigitsRun rest
      (v, c, 1, r)
    | rest => (0, 0, 0, rest)
  if intCnt + fracCnt = 0 then none
  else
    let (expPart, s3) :=
      match s2 with
      | 101 :: rest => (some rest, rest)
      | 69 :: rest => (some rest, rest)
      | rest => (none, rest)
    match expPart with
    | some rest =>
      match parseScientific rest with
      | some (e, r) =>
        let consumed := s.length - r.length
        some (((intVal * 10 ^ fracCnt + fracVal : Nat) : ℚ) / 10 ^ fracCnt *
          qpow10 e, consumed)
      | none => none
    | none =>
      let consumed := s.length - s3.length
      let _ := dotLen
      some (((intVal * 10 ^ fracCnt + fracVal : Nat) : ℚ) / 10 ^ fracCnt,
        consumed)

/-- `parse_inf_nan` (values idealized as 0 in ℚ): recognizes the
case-insensitive prefixes `inf` / `infinity` / `nan` exactly as the
register-based source does (only the first three bytes decide when fewer
than eight bytes remain). -/
def parseInfNan (s : List Nat) : Option (ℚ × Nat) :=
  -- uppercase-folding mask 0xDF applied per byte
  let up : Nat → Nat := fun b => b &&& 0xDF
  match s with
  | a :: b :: c :: rest =>
    let l3 := [up a, up b, up c]
    if l3 = [73, 78, 70] then -- "INF"
      -- full-register compare with "INFINITY" only when 8 bytes available
      match rest with
      | d :: e :: f :: g :: h :: _ =>
        if [up d, up e, up f, up g, up h] = [73, 78, 73, 84, 89] then
          some (0, 8)
        else some (0, 3)
      | _ => some (0, 3)
    else if l3 = [78, 65, 78] then some (0, 3) -- "NAN"
    else none
  | _ => none

/-- `dec2flt` / `f32::parse_partial`: sign, then number or inf/nan.
Returns the (idealized) value and the total consumed byte count. -/
def floatParsePartial (bytes : List Nat) : Option (ℚ × Nat) :=
  match bytes with
  | [] => none
  | c :: rest =>
    let negative := c = 45
    let (signLen, s) :=
      if c = 45 ∨ c = 43 then (1, rest) else (0, bytes)
    if signLen = 1 ∧ s = [] then none
    else
      match parsePartialNumber s with
      | some (v, len) =>
        some ((if negative then -v else v), len + signLen)
      | none =>
        match parseInfNan s with
        | some (v, len) =>
          some ((if negative then -v else v), len + signLen)
        | none => none

/-- `f32::parse`: succeed only when the whole input is consumed. -/
def floatParse (bytes : List Nat) : Option ℚ :=
  match floatParsePartial bytes with
  | some (v, n) => if n = bytes.length then some v else none
  | none => none

-- ---------------------------------------------------------------------------
-- Shared data model (`common.rs`)
-- ---------------------------------------------------------------------------

/-- `u32::MAX`, used as the "missing slot" sentinel. -/
def u32MAX : Nat := 4294967295

/-- 3-vector of (idealized) `f32`. -/
abbrev Vec3 := ℚ × ℚ × ℚ

/-- 2-vector of (idealized) `f32`. -/
abbrev Vec2 := ℚ × ℚ

/-- RGBA color of (idealized) `f32`. -/
abbrev Color4 := ℚ × ℚ × ℚ × ℚ

/-- A triangle face: three `u32` indices into the vertex list. -/
abbrev Face := Nat × Nat × Nat

/-- `common.rs` `Colors`: the optional material colors. -/
structure Colors where
  ambient : Option Color4 := none
  diffuse : Option Color4 := none
  specular : Option Color4 := none
  emissive : Option Color4 := none
  deriving Repr, DecidableEq

/-- `common.rs` `Material` (texture paths and the extended fields used by
the OBJ/COLLADA cores are irrelevant to every claim settled here and are
omitted; a default-valued `Material` is the record with all fields
defaulted). -/
structure Material where
  name : List Nat := []
  color : Colors := {}
  deriving Repr, DecidableEq

/-- `common.rs` `Mesh`.  `texcoords[0]/[1]` and `colors[0]/[1]` are
flattened into separate fields.  Mesh names are kept as raw bytes (the
source's lossy UTF-8 conversion does not affect any claim). -/
structure Mesh where
  name : List Nat := []
  vertices : List Vec3 := []
  texcoords0 : List Vec2 := []
  texcoords1 : List Vec2 := []
  normals : List Vec3 := []
  faces : List Face := []
  colors0 : List Color4 := []
  colors1 : List Color4 := []
  materialIndex : Nat := 0
  deriving Repr, DecidableEq

/-- `common.rs` `Scene`. -/
structure Scene where
  materials : List Material := []
  meshes : List Mesh := []
  deriving Repr, DecidableEq

/-- Offset the three indices of a face by `last` (`[f[0]+last, f[1]+last,
f[2]+last]` in `Mesh::merge`). -/
def faceOffset (last : Nat) (f : Face) : Face :=
  (f.1 + last, f.2.1 + last, f.2.2 + last)

/-- The faces-concatenation loop of `Mesh::merge`: `last` starts at 0; for
every source mesh with non-empty faces, its faces are appended offset by
`last`, and `last` is then set to that mesh's own last face's third index
plus one. -/
def mergeFacesLoop : List Mesh → Nat → List Face
  | [], _ => []
  | m :: rest, last =>
    if m.faces = [] then mergeFacesLoop rest last
    else
      m.faces.map (faceOffset last) ++
        mergeFacesLoop rest ((m.faces.getLast!).2.2 + 1)

/-- `common.rs` `Mesh::merge`. -/
def Mesh.merge (meshes : List Mesh) : Mesh :=
  if meshes.length ≤ 1 then
    -- meshes.pop().unwrap_or_default()
    (meshes.getLast?).getD {}
  else
    let numVertices := (meshes.map (fun m => m.vertices.length)).sum
    let hasColors0 :=
      numVertices = (meshes.map (fun m => m.colors0.length)).sum
    let hasColors1 :=
      numVertices = (meshes.map (fun m => m.colors1.length)).sum
    { name := []
      vertices := meshes.flatMap (fun m => m.vertices)
      texcoords0 := []  -- TODO in source: texcoords are dropped
      texcoords1 := []
      normals := meshes.flatMap (fun m => m.normals)
      faces := mergeFacesLoop meshes 0
      colors0 := if hasColors0 then meshes.flatMap (fun m => m.colors0) else []
      colors1 := if hasColors1 then meshes.flatMap (fun m => m.colors1) else []
      materialIndex := u32MAX }

-- ---------------------------------------------------------------------------
-- Error channel (`error.rs`)
-- ---------------------------------------------------------------------------

/-- The `std::io::ErrorKind` values that occur in the library. -/
inductive IoErrorKind where
  | invalidData
  | unsupported
  | other (n : Nat)
  deriving Repr, DecidableEq

/-- A `std::io::Error`, reduced to its kind and a message. -/
structure IoError where
  kind : IoErrorKind
  msg : String := ""
  deriving Repr, DecidableEq

/-- Decidable equality for `Except`, used to evaluate parser results at
concrete inputs. -/
instance exceptDecEq {ε α : Type} [DecidableEq ε] [DecidableEq α] :
    DecidableEq (Except ε α) := fun a b =>
  match a, b with
  | .ok x, .ok y =>
    if h : x = y then .isTrue (by rw [h]) else .isFalse (by simp [h])
  | .error x, .error y =>
    if h : x = y then .isTrue (by rw [h]) else .isFalse (by simp [h])
  | .ok _, .error _ => .isFalse (by simp)
  | .error _, .ok _ => .isFalse (by simp)

/-- `error.rs` `invalid_data`: when the payload is itself an `io::Error`
the new error keeps its kind, otherwise the kind is `InvalidData`. -/
def invalidData : Sum IoError String → IoError
  | .inl e => e
  | .inr s => { kind := .invalidData, msg := s }

/-- `error.rs` `with_location`: same kind, message augmented with a
`file:line:column` location. -/
def withLocation (e : IoError) (location : String) : IoError :=
  { kind := e.kind, msg := e.msg ++ " (" ++ location ++ ")" }

-- ---------------------------------------------------------------------------
-- utils/mod.rs `utf16::decode_bytes` (used by the OBJ core)
-- ---------------------------------------------------------------------------

/-- UTF-8 encoding of a scalar value (`String::push` on the decoded char). -/
def utf8Encode (c : Nat) : List Nat :=
  if c < 0x80 then [c]
  else if c < 0x800 then [0xC0 ||| (c >>> 6), 0x80 ||| (c &&& 0x3F)]
  else if c < 0x10000 then
    [0xE0 ||| (c >>> 12), 0x80 ||| ((c >>> 6) &&& 0x3F), 0x80 ||| (c &&& 0x3F)]
  else
    [0xF0 ||| (c >>> 18), 0x80 ||| ((c >>> 12) &&& 0x3F),
      0x80 ||| ((c >>> 6) &&& 0x3F), 0x80 ||| (c &&& 0x3F)]

/-- `char::decode_utf16` over a list of 16-bit code units, re-encoded to
UTF-8 (`from_utf16be`/`from_utf16le` body); lone surrogates are an error. -/
def decodeUtf16Units : List Nat → Except Unit (List Nat)
  | [] => .ok []
  | u :: rest =>
    if u < 0xD800 ∨ 0xE000 ≤ u then
      match decodeUtf16Units rest with
      | .ok tail => .ok (utf8Encode u ++ tail)
      | .error e => .error e
    else if u < 0xDC00 then
      match rest with
      | l :: rest2 =>
        if 0xDC00 ≤ l ∧ l < 0xE000 then
          match decodeUtf16Units rest2 with
          | .ok tail =>
            .ok (utf8Encode (0x10000 + ((u - 0xD800) <<< 10) + (l - 0xDC00)) ++ tail)
          | .error e => .error e
        else .error ()
      | [] => .error ()
    else .error ()

/-- Split bytes into 16-bit units (`chunks_exact(2)`), given a combining
function for the two bytes of a unit; an odd trailing byte is an error
("invalid utf-16: lone surrogate found" in the source). -/
def utf16Units (combine : Nat → Nat → Nat) : List Nat → Except Unit (List Nat)
  | [] => .ok []
  | [_] => .error ()
  | a :: b :: rest =>
    match utf16Units combine rest with
    | .ok tail => .ok (combine a b :: tail)
    | .error e => .error e

/-- `from_utf16be` / `from_utf16le` composed: bytes → UTF-8 bytes. -/
def fromUtf16 (bigEndian : Bool) (bytes : List Nat) : Except IoError (List Nat) :=
  let combine := if bigEndian then fun a b => a * 256 + b else fun a b => b * 256 + a
  match utf16Units combine bytes with
  | .error _ =>
    .error (invalidData (.inr "invalid utf-16: lone surrogate found"))
  | .ok units =>
    match decodeUtf16Units units with
    | .ok out => .ok out
    | .error _ => .error (invalidData (.inr "unpaired surrogate"))

/-- `utf16::decode_bytes`: BOM-driven re-encoding for the OBJ core (which
otherwise passes non-UTF-8 bytes through). -/
def decodeBytes (bytes : List Nat) : Except IoError (List Nat) :=
  if [0xEF, 0xBB, 0xBF].isPrefixOf bytes then .ok (bytes.drop 3)
  else if [0xFF, 0xFE, 0, 0].isPrefixOf bytes ∨ [0, 0, 0xFE, 0xFF].isPrefixOf bytes then
    .error (invalidData (.inr "utf-32 is not supported"))
  else if [0xFE, 0xFF].isPrefixOf bytes then fromUtf16 true (bytes.drop 2)
  else if [0xFF, 0xFE].isPrefixOf bytes then fromUtf16 false (bytes.drop 2)
  else .ok bytes

-- ---------------------------------------------------------------------------
-- OBJ core (`obj/mod.rs`): byte classification and skipping helpers
-- ---------------------------------------------------------------------------

/-- OBJ classification bit `[\r\n]`. -/
def objLINE : Nat := 1

/-- OBJ classification bit `[ \t]`. -/
def objSPACE : Nat := 2

/-- OBJ classification bit `[ \r\n\t]`. -/
def objWHITESPACE : Nat := 4

/-- OBJ 256-entry classification `TABLE`, as a function: space/tab map to
`WHITESPACE|SPACE`, CR/LF to `WHITESPACE|LINE`, everything else to 0
(verified against the table literal by the source's own `table` test). -/
def objClass (b : Nat) : Nat :=
  if b = 9 ∨ b = 32 then objWHITESPACE ||| objSPACE
  else if b = 10 ∨ b = 13 then objWHITESPACE ||| objLINE
  else 0

/-- `obj/mod.rs` `skip_whitespace_until_byte_or_eof` (handles the
backslash-newline line continuation). Returns `(success, rest)`. -/
def objSkipWsUntil (byteMask wsMask : Nat) : List Nat → (Bool × List Nat)
  | [] => (true, [])
  | b :: sNext =>
    let t := objClass b
    if t &&& byteMask ≠ 0 then (true, sNext)
    else if t &&& wsMask ≠ 0 then objSkipWsUntil byteMask wsMask sNext
    else if b = 92 then
      match sNext with
      | 13 :: 10 :: rest => objSkipWsUntil byteMask wsMask rest
      | 10 :: rest => objSkipWsUntil byteMask wsMask rest
      | 13 :: rest => objSkipWsUntil byteMask wsMask rest
      | _ => (false, b :: sNext)
    else (false, b :: sNext)

/-- `obj/mod.rs` `skip_spaces_until_line`. -/
def objSkipSpacesUntilLine (s : List Nat) : (Bool × List Nat) :=
  objSkipWsUntil objLINE objSPACE s

/-- The consuming loop of `obj/mod.rs` `skip_spaces`. -/
def objSkipSpacesAux : List Nat → List Nat
  | [] => []
  | b :: sNext =>
    if objClass b &&& objSPACE ≠ 0 then objSkipSpacesAux sNext
    else if b = 92 then
      match sNext with
      | 13 :: 10 :: rest => objSkipSpacesAux rest
      | 10 :: rest => objSkipSpacesAux rest
      | 13 :: rest => objSkipSpacesAux rest
      | _ => b :: sNext
    else b :: sNext

/-- `obj/mod.rs` `skip_spaces`: returns whether anything was consumed. -/
def objSkipSpaces (s : List Nat) : (Bool × List Nat) :=
  let r := objSkipSpacesAux s
  (r.length ≠ s.length, r)

/-- `obj/mod.rs` `skip_any_until_line`: consume up to and including the next
line terminator, honouring backslash-newline continuations. -/
def objSkipAnyUntilLine : List Nat → List Nat
  | [] => []
  -- the backslash-continuation guard (92 is not line-classified, so these
  -- literal patterns fire exactly when the source's guard does)
  | 92 :: 13 :: 10 :: rest => objSkipAnyUntilLine rest
  | 92 :: 10 :: rest => objSkipAnyUntilLine rest
  | 92 :: 13 :: rest => objSkipAnyUntilLine rest
  | b :: sNext =>
    if objClass b &&& objLINE ≠ 0 then sNext
    else objSkipAnyUntilLine sNext

/-- `utils/bytes.rs` `memchr_naive`: index of the first occurrence of a
byte. (The width-specialized `starts_with` is embedded as the equivalent
prefix test.) -/
def memchrNaive (needle : Nat) : List Nat → Option Nat
  | [] => none
  | b :: rest =>
    if b = needle then some 0
    else (memchrNaive needle rest).map (· + 1)

/-- `utils/bytes.rs` `memchr_naive_table` specialized to the OBJ table:
index of the first byte whose class intersects `mask`. -/
def objMemchrTable (mask : Nat) : List Nat → Option Nat
  | [] => none
  | b :: rest =>
    if objClass b &&& mask ≠ 0 then some 0
    else (objMemchrTable mask rest).map (· + 1)

/-- `obj/mod.rs` `token`: consume a literal token if it is a prefix. -/
def objToken (tok : List Nat) (s : List Nat) : (Bool × List Nat) :=
  if tok.isPrefixOf s then (true, s.drop tok.length) else (false, s)

/-- Drop leading whitespace-classified bytes (helper for `trimTrailingWs`,
operating on the reversed name). -/
def dropLeadingWs : List Nat → List Nat
  | [] => []
  | b :: rest =>
    if objClass b &&& objWHITESPACE ≠ 0 then dropLeadingWs rest else b :: rest

/-- Strip trailing whitespace-classified bytes (the `split_last` trim loop
of `obj/mod.rs` `name`). -/
def trimTrailingWs (name : List Nat) : List Nat :=
  (dropLeadingWs name.reverse).reverse

/-- `obj/mod.rs` `name`: everything up to the line end (continuations
spliced out by `skip_any_until_line`'s consumption), trailing whitespace
trimmed; returns `(name, rest)`. -/
def objName (s : List Nat) : (List Nat × List Nat) :=
  let rest := objSkipAnyUntilLine s
  let consumed := s.take (s.length - rest.length)
  (trimTrailingWs consumed, rest)

-- ---------------------------------------------------------------------------
-- OBJ core: directive readers
-- ---------------------------------------------------------------------------

/-- `obj/error.rs` `ErrorKind`.  The extra `fuel` constructor marks
exhaustion of the recursion fuel; it is unreachable for the fuel the entry
point supplies (every loop iteration consumes at least one input byte). -/
inductive ObjErrorKind where
  | expectedSpace (tag : String) (n : Nat)
  | expectedNewline (tag : String) (n : Nat)
  | expected (tag : String) (n : Nat)
  | floatErr (n : Nat)
  | intErr (n : Nat)
  | invalidW (n : Nat)
  | invalidFaceIndex (n : Nat)
  | oob (i : Nat) (n : Nat)
  | io (e : IoError)
  | fuel
  deriving Repr, DecidableEq

/-- `i64 as u32`-style cast: two's-complement truncation of an `Int` to an
unsigned 32-bit value. -/
def u32OfInt (z : Int) : Nat := (z % (4294967296 : Int)).toNat

/-- A parsed OBJ face before triangulation (`obj/mod.rs` `Face`); each
corner is the `(v, vt, vn)` index triple with `u32::MAX` for missing
slots. -/
inductive ObjFace where
  | point (a : Nat × Nat × Nat)
  | line (a b : Nat × Nat × Nat)
  | triangle (a b c : Nat × Nat × Nat)
  | polygon (vs : List (Nat × Nat × Nat))
  deriving Repr, DecidableEq

/-- `obj/mod.rs` `read_float3`: three floats separated by mandatory
spaces. -/
def readFloat3 (tag : String) (s : List Nat) :
    Except ObjErrorKind ((ℚ × ℚ × ℚ) × List Nat) := do
  let (f0, s) ←
    match floatParsePartial s with
    | some (f, n) => .ok (f, s.drop n)
    | none => .error (.floatErr s.length)
  let (ok, s) := objSkipSpaces s
  if !ok then .error (.expectedSpace tag s.length)
  else
    let (f1, s) ←
      match floatParsePartial s with
      | some (f, n) => .ok (f, s.drop n)
      | none => .error (.floatErr s.length)
    let (ok, s) := objSkipSpaces s
    if !ok then .error (.expectedSpace tag s.length)
    else
      let (f2, s) ←
        match floatParsePartial s with
        | some (f, n) => .ok (f, s.drop n)
        | none => .error (.floatErr s.length)
      .ok ((f0, f1, f2), s)

/-- `obj/mod.rs` `read_v`: vertex position with optional homogeneous `w`
or RGB vertex color; returns the updated `(vertices, colors)` lists. -/
def readV (vertices colors : List Vec3) (s : List Nat) :
    Except ObjErrorKind (List Vec3 × List Vec3 × List Nat) := do
  let (vertex, s) ← readFloat3 "v" s
  let (hasSpace, s) := objSkipSpaces s
  match s with
  | [] => .ok (vertices ++ [vertex], colors, [])
  | b :: rest =>
    if b = 10 ∨ b = 13 then .ok (vertices ++ [vertex], colors, rest)
    else if !hasSpace then .error (.expectedSpace "v" s.length)
    else
      let (w, s) ←
        match floatParsePartial s with
        | some (f, n) => .ok (f, s.drop n)
        | none => .error (.floatErr s.length)
      let (hasSpace, s) := objSkipSpaces s
      let homog : Except ObjErrorKind (List Vec3 × List Vec3 × List Nat) :=
        if w = 0 then .error (.invalidW s.length)
        else
          .ok (vertices ++ [(vertex.1 / w, vertex.2.1 / w, vertex.2.2 / w)],
            colors, s.drop 1)
      match s with
      | [] =>
        if w = 0 then .error (.invalidW 0)
        else
          .ok (vertices ++ [(vertex.1 / w, vertex.2.1 / w, vertex.2.2 / w)],
            colors, [])
      | b :: _ =>
        if b = 10 ∨ b = 13 then homog
        else if !hasSpace then .error (.expectedSpace "v" s.length)
        else do
          let vertices := vertices ++ [vertex]
          let r := w
          let (g, s) ←
            match floatParsePartial s with
            | some (f, n) => .ok (f, s.drop n)
            | none => .error (.floatErr s.length)
          let (ok, s) := objSkipSpaces s
          if !ok then .error (.expectedSpace "v" s.length)
          else do
            let (bVal, s) ←
              match floatParsePartial s with
              | some (f, n) => .ok (f, s.drop n)
              | none => .error (.floatErr s.length)
            let colors := colors ++ [(r, g, bVal)]
            let (ok, s) := objSkipSpacesUntilLine s
            if !ok then .error (.expectedNewline "v" s.length)
            else .ok (vertices, colors, s)

/-- `obj/mod.rs` `read_vn`. -/
def readVn (normals : List Vec3) (s : List Nat) :
    Except ObjErrorKind (List Vec3 × List Nat) := do
  let (normal, s) ← readFloat3 "vn" s
  let (ok, s) := objSkipSpacesUntilLine s
  if !ok then .error (.expectedNewline "vn" s.length)
  else .ok (normals ++ [normal], s)

/-- `obj/mod.rs` `read_vt`: `vt u [v=0] [w=0]` (`w` parsed but ignored). -/
def readVt (texcoords : List Vec2) (s : List Nat) :
    Except ObjErrorKind (List Vec2 × List Nat) := do
  let (u, s) ←
    match floatParsePartial s with
    | some (f, n) => .ok (f, s.drop n)
    | none => .error (.floatErr s.length)
  let (hasSpace, s) := objSkipSpaces s
  match s with
  | [] => .ok (texcoords ++ [(u, 0)], [])
  | b :: rest =>
    if b = 10 ∨ b = 13 then .ok (texcoords ++ [(u, 0)], rest)
    else if !hasSpace then .error (.expectedSpace "vt" s.length)
    else do
      let (v, s) ←
        match floatParsePartial s with
        | some (f, n) => .ok (f, s.drop n)
        | none => .error (.floatErr s.length)
      let texcoords := texcoords ++ [(u, v)]
      let (hasSpace, s) := objSkipSpaces s
      match s with
      | [] => .ok (texcoords, [])
      | b :: rest =>
        if b = 10 ∨ b = 13 then .ok (texcoords, rest)
        else if !hasSpace then .error (.expectedSpace "vt" s.length)
        else do
          let (_w, s) ←
            match floatParsePartial s with
            | some (f, n) => .ok (f, s.drop n)
            | none => .error (.floatErr s.length)
          let (ok, s) := objSkipSpacesUntilLine s
          if !ok then .error (.expectedNewline "vt" s.length)
          else .ok (texcoords, s)

/-- One corner `v[/vt][/vn]` of an `f` directive: split at `/` and resolve
relative/1-based indices against the current array lengths.  `sLen`/`fLen`
reproduce the source's error-position bookkeeping. -/
def readFaceCorner (w : List Nat) (nVertices nTexcoords nNormals : Nat)
    (sLen fLen : Nat) : Except ObjErrorKind (Nat × Nat × Nat) := do
  let (i, w) :=
    match memchrNaive 47 w with
    | some n => (w.take n, w.drop (n + 1))
    | none => (w, [])
  let idx0 ←
    match i32Parse i with
    | some i =>
      .ok (if i < 0 then u32OfInt (nVertices + i) else u32OfInt (i - 1))
    | none => .error (.intErr (sLen + fLen))
  let (i, w) :=
    match memchrNaive 47 w with
    | some n => (w.take n, w.drop (n + 1))
    | none => (w, [])
  let idx1 ←
    if i = [] then .ok u32MAX
    else
      match i32Parse i with
      | some i =>
        .ok (if i < 0 then u32OfInt (nTexcoords + i) else u32OfInt (i - 1))
      | none => .error (.intErr (sLen + fLen))
  let idx2 ←
    if w = [] then .ok u32MAX
    else
      match i32Parse w with
      | some i =>
        .ok (if i < 0 then u32OfInt (nNormals + i) else u32OfInt (i - 1))
      | none => .error (.intErr (sLen + fLen))
  .ok (idx0, idx1, idx2)

/-- The corner loop of `obj/mod.rs` `read_f` (fuelled; each iteration
consumes at least one byte of the face line `f`). -/
def readFLoop (nVertices nTexcoords nNormals sLen : Nat) :
    Nat → List Nat → List (Nat × Nat × Nat) →
    Except ObjErrorKind (List (Nat × Nat × Nat))
  | 0, f, acc => if f = [] then .ok acc else .error .fuel
  | _ + 1, [], acc => .ok acc
  | fuel + 1, f@(_ :: _), acc => do
    let (w, fNext) :=
      match objMemchrTable objSPACE f with
      | some n => (f.take n, f.drop (n + 1))
      | none => (f, [])
    let extra := if sLen = 0 then 0 else 1
    let idx ← readFaceCorner w nVertices nTexcoords nNormals (sLen + extra) f.length
    let (_, fNext) := objSkipSpaces fNext
    readFLoop nVertices nTexcoords nNormals sLen fuel fNext (acc ++ [idx])

/-- `obj/mod.rs` `read_f`: slice the face line, parse its corners, and
classify the result by corner count (`0` corners is an error; `≥ 4` is a
polygon). -/
def readF (faces : List ObjFace) (nVertices nTexcoords nNormals : Nat)
    (s : List Nat) : Except ObjErrorKind (List ObjFace × List Nat) := do
  let (f, s) :=
    match objMemchrTable objLINE s with
    | some n => (s.take n, s.drop (n + 1))
    | none => (s, [])
  let corners ← readFLoop nVertices nTexcoords nNormals s.length
    (f.length + 1) f []
  match corners with
  | [] => .error (.expected "f" s.length)
  | [a] => .ok (faces ++ [.point a], s)
  | [a, b] => .ok (faces ++ [.line a b], s)
  | [a, b, c] => .ok (faces ++ [.triangle a b c], s)
  | vs => .ok (faces ++ [.polygon vs], s)

-- ---------------------------------------------------------------------------
-- OBJ core: mesh emission (`push_vertex` / `push_mesh`) and the main loop
-- ---------------------------------------------------------------------------

/-- `obj/mod.rs` `push_vertex`: copy one face corner's attributes into the
output mesh.  A missing `vt`/`vn` slot is the `u32::MAX` sentinel; colors
are indexed by the position index and get alpha 1. -/
def pushVertex (mesh : Mesh) (vert : Nat × Nat × Nat)
    (vertices colors : List Vec3) (texcoords : List Vec2)
    (normals : List Vec3) : Except ObjErrorKind Mesh := do
  let v := vert.1
  let mesh ←
    match vertices.get? v with
    | some val => .ok { mesh with vertices := mesh.vertices ++ [val] }
    | none => .error (.oob v 0)
  let mesh ←
    if texcoords ≠ [] ∧ vert.2.1 ≠ u32MAX then
      let vt := vert.2.1
      match texcoords.get? vt with
      | some val => .ok { mesh with texcoords0 := mesh.texcoords0 ++ [val] }
      | none => .error (.oob vt 0)
    else .ok mesh
  let mesh ←
    if normals ≠ [] ∧ vert.2.2 ≠ u32MAX then
      let vn := vert.2.2
      match normals.get? vn with
      | some val => .ok { mesh with normals := mesh.normals ++ [val] }
      | none => .error (.oob vn 0)
    else .ok mesh
  if colors ≠ [] then
    match colors.get? v with
    | some rgb =>
      .ok { mesh with colors0 := mesh.colors0 ++ [(rgb.1, rgb.2.1, rgb.2.2, 1)] }
    | none => .error (.oob v 0)
  else .ok mesh

/-- One triangle of the `push_mesh` emit loop: three consecutive output
vertex records and the face `[len, len+1, len+2]`. -/
def pushTriangle (mesh : Mesh) (a b c : Nat × Nat × Nat)
    (vertices colors : List Vec3) (texcoords : List Vec2)
    (normals : List Vec3) : Except ObjErrorKind Mesh := do
  let len := mesh.vertices.length
  let verticesIndices : Face :=
    (truncCast 32 len, truncCast 32 (len + 1), truncCast 32 (len + 2))
  let mesh ← pushVertex mesh a vertices colors texcoords normals
  let mesh ← pushVertex mesh b vertices colors texcoords normals
  let mesh ← pushVertex mesh c vertices colors texcoords normals
  .ok { mesh with faces := mesh.faces ++ [verticesIndices] }

/-- The fan loop of the `Face::Polygon` arm of `push_mesh`:
`(a,b,c), (a,c,d), …`. -/
def pushPolygonFan (mesh : Mesh) (a b : Nat × Nat × Nat)
    (rest : List (Nat × Nat × Nat)) (vertices colors : List Vec3)
    (texcoords : List Vec2) (normals : List Vec3) :
    Except ObjErrorKind Mesh :=
  match rest with
  | [] => .ok mesh
  | c :: rest => do
    let mesh ← pushTriangle mesh a b c vertices colors texcoords normals
    pushPolygonFan mesh a c rest vertices colors texcoords normals

/-- The per-face dispatch of the `push_mesh` emit loop (points and lines
are ignored). -/
def pushFace (mesh : Mesh) (face : ObjFace) (vertices colors : List Vec3)
    (texcoords : List Vec2) (normals : List Vec3) :
    Except ObjErrorKind Mesh :=
  match face with
  | .point _ => .ok mesh
  | .line _ _ => .ok mesh
  | .triangle a b c => pushTriangle mesh a b c vertices colors texcoords normals
  | .polygon vs =>
    match vs with
    | a :: b :: rest =>
      pushPolygonFan mesh a b rest vertices colors texcoords normals
    | _ => .ok mesh -- unreachable: polygons always have ≥ 4 corners

/-- The emit loop of `push_mesh` over the accumulated faces. -/
def pushFacesLoop (mesh : Mesh) (faces : List ObjFace)
    (vertices colors : List Vec3) (texcoords : List Vec2)
    (normals : List Vec3) : Except ObjErrorKind Mesh :=
  match faces with
  | [] => .ok mesh
  | f :: rest => do
    let mesh ← pushFace mesh f vertices colors texcoords normals
    pushFacesLoop mesh rest vertices colors texcoords normals

/-- `obj/mod.rs` `push_mesh`: flush the accumulated faces into a new output
mesh (a no-op when no faces have accumulated); enforces the per-channel
length checks before the mesh is appended. -/
def pushMesh (meshes : List Mesh) (faces : List ObjFace)
    (vertices : List Vec3) (texcoords : List Vec2) (normals : List Vec3)
    (colors : List Vec3) (currentGroup : List Nat)
    (materialIndex : Option Nat) : Except ObjErrorKind (List Mesh) :=
  if faces = [] then .ok meshes
  else do
    let mesh : Mesh :=
      { name := currentGroup, materialIndex := materialIndex.getD u32MAX }
    let mesh ← pushFacesLoop mesh faces vertices colors texcoords normals
    if mesh.colors0 ≠ [] ∧ mesh.vertices.length ≠ mesh.colors0.length then
      .error (.invalidFaceIndex 0)
    else if mesh.texcoords0 ≠ [] ∧ mesh.vertices.length ≠ mesh.texcoords0.length then
      .error (.invalidFaceIndex 0)
    else if mesh.normals ≠ [] ∧ mesh.vertices.length ≠ mesh.normals.length then
      .error (.invalidFaceIndex 0)
    else .ok (meshes ++ [mesh])

/-- The mutable state of the `read_obj` main loop. -/
structure ObjState where
  vertices : List Vec3 := []
  normals : List Vec3 := []
  texcoords : List Vec2 := []
  colors : List Vec3 := []
  faces : List ObjFace := []
  currentGroup : List Nat := bytesOfAscii "default"
  currentMaterial : List Nat := []
  meshes : List Mesh := []
  materials : List Material := []
  materialMap : List (List Nat × Nat) := []

/-- `HashMap::get` on the insertion-ordered association list used to model
the material map (later inserts shadow earlier ones). -/
def mapGet (m : List (List Nat × Nat)) (k : List Nat) : Option Nat :=
  (m.find? (fun p => decide (p.1 = k))).map (·.2)

/-- The `mtllib` callback of `read_obj`: receives the resolved MTL path and
may extend the materials and the material map (or fail with an I/O error).
The MTL subsystem itself is a parameter of the embedding. -/
abbrev MtlCallback :=
  List Nat → List Material → List (List Nat × Nat) →
    Except IoError (List Material × List (List Nat × Nat))

/-- `Path::join` of the OBJ directory and an MTL path (modelled as a `/`
separated byte concatenation). -/
def joinPath (dir p : List Nat) : List Nat := dir ++ [47] ++ p

/-- One iteration step outcome of the `read_obj` loop. -/
inductive ObjStep where
  | continueAt (st : ObjState) (s : List Nat)
  | fallthrough (st : ObjState) (s : List Nat)

/-- The group-switch step of `read_obj` ('g' lines): when the (defaulted)
group name differs from the current one, flush the pending faces via
`push_mesh` and reset the current material; otherwise continue unchanged. -/
def objGroupSwitch (st : ObjState) (nm : List Nat) (sAfter : List Nat) :
    Except ObjErrorKind ObjStep :=
  -- `if name != current_group`, with the branches swapped
  if nm = st.currentGroup then .ok (.continueAt st sAfter)
  else do
    let materialIndex := mapGet st.materialMap st.currentMaterial
    let meshes ←
      pushMesh st.meshes st.faces st.vertices st.texcoords st.normals
        st.colors st.currentGroup materialIndex
    .ok (.continueAt
      { st with meshes := meshes, faces := [], currentMaterial := [], currentGroup := nm }
      sAfter)

/-- The body of the `read_obj` `while let` loop for one leading byte `c`
(the `continue` paths versus the shared `skip_any_until_line`
fallthrough). `objDir` models `obj_path.and_then(Path::parent)`. -/
def readObjStep (reader : MtlCallback) (objDir : Option (List Nat))
    (st : ObjState) (c : Nat) (sNext : List Nat) :
    Except ObjErrorKind ObjStep :=
  if c = 118 then -- 'v'
    match sNext with
    | 32 :: _ | 9 :: _ => do
      let (_, s) := objSkipSpaces sNext
      let (vertices, colors, s) ← readV st.vertices st.colors s
      let colors :=
        if colors ≠ [] ∧ colors.length < vertices.length then
          colors ++ List.replicate (vertices.length - colors.length) (0, 0, 0)
        else colors
      .ok (.continueAt { st with vertices, colors } s)
    | 110 :: rest => do -- 'n'
      let (ok, s) := objSkipSpaces rest
      if ok then do
        let (normals, s) ← readVn st.normals s
        .ok (.continueAt { st with normals } s)
      else .ok (.fallthrough st s)
    | 116 :: rest => do -- 't'
      let (ok, s) := objSkipSpaces rest
      if ok then do
        let (texcoords, s) ← readVt st.texcoords s
        .ok (.continueAt { st with texcoords } s)
      else .ok (.fallthrough st s)
    | _ => .ok (.fallthrough st sNext)
  else if c = 102 then -- 'f'
    let (ok, s) := objSkipSpaces sNext
    if ok then do
      let (faces, s) ←
        readF st.faces st.vertices.length st.texcoords.length
          st.normals.length s
      .ok (.continueAt { st with faces } s)
    else .ok (.fallthrough st s)
  else if c = 117 then -- 'u' (usemtl)
    let (tok, s) := objToken (bytesOfAscii "semtl") sNext
    if tok then
      let (ok, s) := objSkipSpaces s
      if ok then do
        let (nm, sAfter) := objName s
        -- `if name != current_material`, with the branches swapped
        if nm = st.currentMaterial then .ok (.continueAt st sAfter)
        else do
          let materialIndex := mapGet st.materialMap st.currentMaterial
          let meshes ←
            pushMesh st.meshes st.faces st.vertices st.texcoords st.normals
              st.colors st.currentGroup materialIndex
          .ok (.continueAt
            { st with meshes, faces := [], currentMaterial := nm } sAfter)
      else .ok (.fallthrough st s)
    else .ok (.fallthrough st s)
  else if c = 109 then -- 'm' (mtllib)
    let (tok, s) := objToken (bytesOfAscii "tllib") sNext
    if tok then
      let (ok, s) := objSkipSpaces s
      if ok then
        let (p, sAfter) := objName s
        if p = [] then .ok (.continueAt st sAfter)
        else
          match objDir with
          | some dir =>
            match reader (joinPath dir p) st.materials st.materialMap with
            | .ok (materials, materialMap) =>
              .ok (.continueAt { st with materials, materialMap } sAfter)
            | .error e => .error (.io e)
          | none => .ok (.continueAt st sAfter)
      else .ok (.fallthrough st s)
    else .ok (.fallthrough st s)
  else if c = 103 then -- 'g'
    let (ok, s) := objSkipSpaces sNext
    if ok then
      let (nm0, sAfter) := objName s
      objGroupSwitch st (if nm0 = [] then bytesOfAscii "default" else nm0) sAfter
    else .ok (.fallthrough st s)
  else .ok (.fallthrough st sNext)

/-- The state carried by a `read_obj` step outcome. -/
def ObjStep.state : ObjStep → ObjState
  | .continueAt st _ => st
  | .fallthrough st _ => st

/-- The fuelled `read_obj` main loop: dispatch on the first byte, then
either `continue` or fall through to `skip_any_until_line`. -/
def readObjLoop (reader : MtlCallback) (objDir : Option (List Nat)) :
    Nat → ObjState → List Nat → Except ObjErrorKind ObjState
  | 0, st, s => if s = [] then .ok st else .error .fuel
  | _ + 1, st, [] => .ok st
  | fuel + 1, st, c :: sNext => do
    match ← readObjStep reader objDir st c sNext with
    | .continueAt st s => readObjLoop reader objDir fuel st s
    | .fallthrough st s =>
      readObjLoop reader objDir fuel st (objSkipAnyUntilLine s)

/-- `obj/mod.rs` `read_obj`: run the loop and flush the final mesh.
Returns the meshes and the parsed MTL materials. -/
def readObj (reader : MtlCallback) (objDir : Option (List Nat))
    (s : List Nat) : Except ObjErrorKind (List Mesh × List Material) := do
  let st ← readObjLoop reader objDir (s.length + 1) {} s
  let materialIndex := mapGet st.materialMap st.currentMaterial
  let meshes ←
    pushMesh st.meshes st.faces st.vertices st.texcoords st.normals st.colors
      st.currentGroup materialIndex
  .ok (meshes, st.materials)

/-- `obj/error.rs` `ErrorKind::into_io_error`: `Io` errors are returned
verbatim, every other kind becomes an `InvalidData` error with a location
suffix. -/
def objIntoIoError (e : ObjErrorKind) : IoError :=
  match e with
  | .io ioe => ioe
  | _ => withLocation (invalidData (.inr "obj parse error")) "location"

/-- `obj/mod.rs` `from_slice`: decode the byte encoding, run `read_obj`
with the MTL-reading callback (reader failures are swallowed; the MTL
parser itself is the `readMtl` parameter), then bind one material per
mesh. -/
def objFromSlice (readMtl : List Nat → MtlCallback)
    (reader : List Nat → Except IoError (List Nat))
    (objDir : Option (List Nat)) (bytes : List Nat) :
    Except IoError Scene := do
  let bytes ← decodeBytes bytes
  let cb : MtlCallback := fun path materials materialMap =>
    match reader path with
    | .ok mtlBytes => readMtl mtlBytes path materials materialMap
    | .error _ => .ok (materials, materialMap) -- reader errors are ignored
  match readObj cb objDir bytes with
  | .ok (meshes, materials) =>
    .ok
      { materials :=
          meshes.map (fun m => ((materials.get? m.materialIndex).getD {}))
        meshes }
  | .error e => .error (objIntoIoError e)

-- ---------------------------------------------------------------------------
-- STL core (`stl/mod.rs`)
-- ---------------------------------------------------------------------------

/-- STL classification bit `[ \t]`. -/
def stlSPACE : Nat := 1

/-- STL classification bit `[\r\n]`. -/
def stlLINE : Nat := 2

/-- STL whitespace mask `[ \r\n\t]`. -/
def stlWS : Nat := stlSPACE ||| stlLINE

/-- STL 256-entry classification `TABLE`, as a function: space/tab, CR/LF,
and the reserved starter letters `s`,`e`,`f`,`o`,`v`. -/
def stlClass (b : Nat) : Nat :=
  if b = 9 ∨ b = 32 then stlSPACE
  else if b = 10 ∨ b = 13 then stlLINE
  else if b = 115 then 4 -- 's'
  else if b = 101 then 8 -- 'e'
  else if b = 102 then 16 -- 'f'
  else if b = 111 then 32 -- 'o'
  else if b = 118 then 64 -- 'v'
  else 0

/-- `stl/mod.rs` `skip_whitespace_until_byte` (no continuation handling in
the STL scanner). -/
def stlSkipWsUntilByte (byteMask wsMask : Nat) : List Nat → (Bool × List Nat)
  | [] => (false, [])
  | b :: sNext =>
    let t := stlClass b
    if t &&& byteMask ≠ 0 then (true, sNext)
    else if t &&& wsMask ≠ 0 then stlSkipWsUntilByte byteMask wsMask sNext
    else (false, b :: sNext)

/-- `stl/mod.rs` `skip_spaces_until_line`. -/
def stlSkipSpacesUntilLine (s : List Nat) : (Bool × List Nat) :=
  stlSkipWsUntilByte stlLINE stlSPACE s

/-- The consuming loop of `stl/mod.rs` `skip_spaces`. -/
def stlSkipSpacesAux : List Nat → List Nat
  | [] => []
  | b :: sNext =>
    if stlClass b &&& stlSPACE ≠ 0 then stlSkipSpacesAux sNext else b :: sNext

/-- `stl/mod.rs` `skip_spaces`. -/
def stlSkipSpaces (s : List Nat) : (Bool × List Nat) :=
  let r := stlSkipSpacesAux s
  (r.length ≠ s.length, r)

/-- `stl/mod.rs` `token`. -/
def stlToken (tok : List Nat) (s : List Nat) : (Bool × List Nat) :=
  if tok.isPrefixOf s then (true, s.drop tok.length) else (false, s)

/-- `stl/mod.rs` `skip_spaces_and_lines_until_token`: skip whitespace, then
require the token to start at the first byte whose class matches the
token's first byte (the `check_start` trick skips re-comparing the first
byte when the token length is a multiple of 4). -/
def stlSkipSpacesAndLinesUntilToken (tok : List Nat) : List Nat → (Bool × List Nat)
  | [] => (false, [])
  | b :: sNext =>
    let tokenStartMask := stlClass (tok.headD 0)
    let checkStart := if tok.length = 4 ∨ tok.length = 8 ∨ tok.length = 12 ∨ tok.length = 16 then 0 else 1
    let t := stlClass b
    if t &&& tokenStartMask ≠ 0 then
      if (tok.drop checkStart).isPrefixOf ((b :: sNext).drop checkStart) then
        (true, (b :: sNext).drop tok.length)
      else (false, b :: sNext)
    else if t &&& stlWS ≠ 0 then stlSkipSpacesAndLinesUntilToken tok sNext
    else (false, b :: sNext)

/-- `memchr_naive_table` specialized to the STL table. -/
def stlMemchrTable (mask : Nat) : List Nat → Option Nat
  | [] => none
  | b :: rest =>
    if stlClass b &&& mask ≠ 0 then some 0
    else (stlMemchrTable mask rest).map (· + 1)

/-- `stl/error.rs` `ErrorKind`. -/
inductive StlErrorKind where
  | expectedSpace (tag : String) (n : Nat)
  | expectedNewline (tag : String) (n : Nat)
  | expected (tag : String) (n : Nat)
  | floatErr (n : Nat)
  | notAscii (tag : String) (n : Nat)
  | tooSmall
  | invalidSize
  | tooManyTriangles
  | fuel -- unreachable for the supplied fuel; see `ObjErrorKind.fuel`
  deriving Repr, DecidableEq

/-- `stl/mod.rs` `Triangle`. -/
structure StlTriangle where
  normal : Vec3
  vertices : Vec3 × Vec3 × Vec3
  color : Nat
  deriving Repr, DecidableEq

/-- `Mesh::push_triangle` (`FromStl for Mesh`): three vertex records, three
copies of the facet normal, one consecutive-index face. -/
def stlPushTriangle (mesh : Mesh) (t : StlTriangle) : Mesh :=
  let len := mesh.vertices.length
  { mesh with
    vertices := mesh.vertices ++ [t.vertices.1, t.vertices.2.1, t.vertices.2.2]
    normals := mesh.normals ++ [t.normal, t.normal, t.normal]
    faces := mesh.faces ++
      [(truncCast 32 len, truncCast 32 (len + 1), truncCast 32 (len + 2))] }

/-- `bytes.is_ascii()`. -/
def isAsciiBytes (s : List Nat) : Bool := s.all (· < 128)

/-- `stl/mod.rs` `is_ascii_stl`: optional leading whitespace followed by
`solid`. -/
def isAsciiStl (bytes : List Nat) : Bool :=
  (stlSkipSpacesAndLinesUntilToken (bytesOfAscii "solid") bytes).1

/-- Parse `<f> <f> <f>` with a mandatory space before each float
(the normal/vertex float loops of `read_ascii_stl`). -/
def stlReadFloat3 (tag : String) (s : List Nat) :
    Except StlErrorKind (Vec3 × List Nat) := do
  let (ok, s) := stlSkipSpaces s
  if !ok then .error (.expectedSpace tag s.length)
  else
    let (f0, s) ←
      match floatParsePartial s with
      | some (f, n) => .ok (f, s.drop n)
      | none => .error (.floatErr s.length)
    let (ok, s) := stlSkipSpaces s
    if !ok then .error (.expectedSpace tag s.length)
    else
      let (f1, s) ←
        match floatParsePartial s with
        | some (f, n) => .ok (f, s.drop n)
        | none => .error (.floatErr s.length)
      let (ok, s) := stlSkipSpaces s
      if !ok then .error (.expectedSpace tag s.length)
      else
        let (f2, s) ←
          match floatParsePartial s with
          | some (f, n) => .ok (f, s.drop n)
          | none => .error (.floatErr s.length)
        .ok ((f0, f1, f2), s)

/-- One `facet … endfacet` block of `read_ascii_stl`; `none` when the
`facet` token is absent (ending the facet loop). -/
def stlReadFacet (s0 : List Nat) :
    Except StlErrorKind (Option (StlTriangle × List Nat)) := do
  let (ok, s) := stlSkipSpacesAndLinesUntilToken (bytesOfAscii "facet") s0
  if !ok then .ok none
  else
    let (ok2, s) := stlSkipSpaces s
    if !ok2 then .error (.expectedSpace "facet" s.length)
    else
      let (ok3, s) := stlToken (bytesOfAscii "normal") s
      if !ok3 then .error (.expected "normal" s.length)
      else do
        let (normal, s) ← stlReadFloat3 "normal" s
        let (ok4, s) := stlSkipSpacesUntilLine s
        if !ok4 then .error (.expectedNewline "normal" s.length)
        else
          let (ok5, s) := stlSkipSpacesAndLinesUntilToken (bytesOfAscii "outer") s
          if !ok5 then .error (.expected "outer" s.length)
          else
            let (ok6, s) := stlSkipSpaces s
            if !ok6 then .error (.expectedSpace "outer" s.length)
            else
              let (ok7, s) := stlToken (bytesOfAscii "loop") s
              if !ok7 then .error (.expected "loop" s.length)
              else
                let (ok8, s) := stlSkipSpacesUntilLine s
                if !ok8 then .error (.expectedNewline "loop" s.length)
                else do
                  -- vertex 1
                  let (okV, s) := stlSkipSpacesAndLinesUntilToken (bytesOfAscii "vertex") s
                  if !okV then .error (.expected "vertex" s.length)
                  else do
                    let (v1, s) ← stlReadFloat3 "vertex" s
                    let (okN, s) := stlSkipSpacesUntilLine s
                    if !okN then .error (.expectedNewline "vertex" s.length)
                    else
                      let (okV2, s) := stlSkipSpacesAndLinesUntilToken (bytesOfAscii "vertex") s
                      if !okV2 then .error (.expected "vertex" s.length)
                      else do
                        let (v2, s) ← stlReadFloat3 "vertex" s
                        let (okN2, s) := stlSkipSpacesUntilLine s
                        if !okN2 then .error (.expectedNewline "vertex" s.length)
                        else
                          let (okV3, s) := stlSkipSpacesAndLinesUntilToken (bytesOfAscii "vertex") s
                          if !okV3 then .error (.expected "vertex" s.length)
                          else do
                            let (v3, s) ← stlReadFloat3 "vertex" s
                            let (okN3, s) := stlSkipSpacesUntilLine s
                            if !okN3 then .error (.expectedNewline "vertex" s.length)
                            else
                              let (okE, s) := stlSkipSpacesAndLinesUntilToken (bytesOfAscii "endloop") s
                              if !okE then .error (.expected "endloop" s.length)
                              else
                                let (okE2, s) := stlSkipSpacesUntilLine s
                                if !okE2 then .error (.expectedNewline "endloop" s.length)
                                else
                                  let (okF, s) := stlSkipSpacesAndLinesUntilToken (bytesOfAscii "endfacet") s
                                  if !okF then .error (.expected "endfacet" s.length)
                                  else
                                    let (okF2, s) := stlSkipSpacesUntilLine s
                                    if !okF2 then .error (.expectedNewline "endfacet" s.length)
                                    else
                                      .ok (some
                                        ({ normal, vertices := (v1, v2, v3), color := 0 }, s))

/-- The facet loop of one solid (fuelled; each facet consumes input). -/
def stlFacetLoop : Nat → Mesh → List Nat →
    Except StlErrorKind (Mesh × List Nat)
  | 0, _, _ => .error .fuel
  | fuel + 1, mesh, s => do
    match ← stlReadFacet s with
    | none =>
      -- the `break`: the token scan consumed any leading whitespace
      let (_, s') := stlSkipSpacesAndLinesUntilToken (bytesOfAscii "facet") s
      .ok (mesh, s')
    | some (t, s) => stlFacetLoop fuel (stlPushTriangle mesh t) s

/-- The name line and body of one `solid … endsolid` block (the part of
`read_ascii_stl` from the solid's name line on). -/
def stlReadSolidName (s : List Nat) (n : Nat) :
    Except StlErrorKind (Option (Mesh × List Nat)) := do
  let nameLine := s.take n
  if !isAsciiBytes nameLine then .error (.notAscii "solid" s.length)
  else
    let nm :=
      match stlMemchrTable stlSPACE nameLine with
      | some k => nameLine.take k
      | none => nameLine
    let mesh : Mesh := { name := nm }
    let s := s.drop (n + 1)
    let (mesh, s) ← stlFacetLoop (s.length + 1) mesh s
    let (okE, s) := stlToken (bytesOfAscii "endsolid") s
    if !okE then .error (.expected "endsolid" s.length)
    else
      match stlMemchrTable stlLINE s with
      | some n =>
        if !isAsciiBytes (s.take n) then .error (.notAscii "endsolid" s.length)
        else .ok (some (mesh, s.drop (n + 1)))
      | none =>
        if !isAsciiBytes s then .error (.notAscii "endsolid" s.length)
        else .ok (some (mesh, []))

/-- One `solid … endsolid` block of `read_ascii_stl`; `none` when at
end-of-input (no further solid). -/
def stlReadSolid (meshesEmpty : Bool) (s0 : List Nat) :
    Except StlErrorKind (Option (Mesh × List Nat)) := do
  let (ok, s) := stlSkipSpacesAndLinesUntilToken (bytesOfAscii "solid") s0
  if !ok then
    if s = [] then
      if meshesEmpty then .error (.expected "solid" 0) else .ok none
    else .error (.expected "solid" s.length)
  else
    let (ok2, s) := stlSkipSpaces s
    if !ok2 then .error (.expectedSpace "solid" s.length)
    else
      match stlMemchrTable stlLINE s with
      | none => .error (.expectedNewline "solid" s.length)
      | some n => stlReadSolidName s n

/-- The solid loop of `read_ascii_stl` (fuelled); errors carry the meshes
accumulated so far (the caller's fallback test needs them). -/
def stlSolidLoop : Nat → List Mesh → List Nat →
    Except (StlErrorKind × List Mesh) (List Mesh)
  | 0, meshes, _ => .error (.fuel, meshes)
  | fuel + 1, meshes, s =>
    match stlReadSolid (meshes = []) s with
    | .error e => .error (e, meshes)
    | .ok none => .ok meshes
    | .ok (some (mesh, s)) => stlSolidLoop fuel (meshes ++ [mesh]) s

/-- `stl/mod.rs` `read_ascii_stl`. -/
def readAsciiStl (s : List Nat) : Except (StlErrorKind × List Mesh) (List Mesh) :=
  stlSolidLoop (s.length + 1) [] s

/-- IEEE-754 binary32 bit pattern decoded to its exact rational value
(`f32::from_le_bytes`); non-finite values (exponent 255) are idealized as
0, consistent with the ℚ float model. -/
def f32ValOfBits (bits : Nat) : ℚ :=
  let sign := bits >>> 31
  let exp := (bits >>> 23) &&& 255
  let frac := bits &&& 8388607
  let mag : ℚ :=
    if exp = 255 then 0
    else if exp = 0 then (frac : ℚ) / 2 ^ 149
    else ((8388608 + frac : Nat) : ℚ) * 2 ^ exp / 2 ^ 150
  if sign = 1 then -mag else mag

/-- Little-endian `f32` at offset `i` of a 50-byte triangle record. -/
def f32At (chunk : List Nat) (i : Nat) : ℚ :=
  f32ValOfBits
    (chunk.getD i 0 + chunk.getD (i + 1) 0 * 256 + chunk.getD (i + 2) 0 * 65536 +
      chunk.getD (i + 3) 0 * 16777216)

/-- `stl/mod.rs` `read_binary_triangle`: normal, three vertices, 16-bit
attribute word. -/
def readBinaryTriangle (chunk : List Nat) : StlTriangle :=
  { normal := (f32At chunk 0, f32At chunk 4, f32At chunk 8)
    vertices :=
      ((f32At chunk 12, f32At chunk 16, f32At chunk 20),
       (f32At chunk 24, f32At chunk 28, f32At chunk 32),
       (f32At chunk 36, f32At chunk 40, f32At chunk 44))
    color := chunk.getD 48 0 + chunk.getD 49 0 * 256 }

/-- `chunks_exact(50)` (fuelled; the fuel is the byte count, amply enough
for one chunk per 50 bytes). -/
def chunks50 : Nat → List Nat → List (List Nat)
  | 0, _ => []
  | fuel + 1, s =>
    if s.length ≥ 50 then s.take 50 :: chunks50 fuel (s.drop 50) else []

/-- `stl/mod.rs` `BinaryHeader`. -/
structure BinaryHeader where
  defaultColor : Color4
  parseColor : Bool
  reverseColor : Bool
  triangleBytes : List Nat
  deriving Repr, DecidableEq

/-- The `COLOR=` scan of `read_binary_header` over the 80-byte header
(`while s.len() >= expect.len() + 4`). -/
def stlFindColor : List Nat → Option (Nat × Nat × Nat × Nat)
  | [] => none
  | b :: rest =>
    if (b :: rest).length ≥ 10 then
      if (bytesOfAscii "COLOR=").isPrefixOf (b :: rest) then
        match (b :: rest).drop 6 with
        | r :: g :: bb :: a :: _ => some (r, g, bb, a)
        | _ => none -- unreachable: at least 10 bytes remain
      else stlFindColor rest
    else none

/-- `stl/mod.rs` `read_binary_header`. -/
def readBinaryHeader (bytes : List Nat) (parseColor : Bool) :
    Except StlErrorKind BinaryHeader :=
  if bytes.length < 84 then .error .tooSmall
  else
    let header := bytes.take 80
    let triangleBytes := bytes.drop 84
    let extra := triangleBytes.length % 50
    if extra ≠ 0 ∧
        ¬(extra = 1 ∧ [10].isSuffixOf triangleBytes) ∧
        ¬(extra = 2 ∧ [13, 10].isSuffixOf triangleBytes) then
      .error .invalidSize
    else
      let numTriangles := triangleBytes.length / 50
      if numTriangles * 3 > u32MAX then .error .tooManyTriangles
      else
        let (reverseColor, defaultColor) :=
          if parseColor then
            match stlFindColor header with
            | some (r, g, b, a) =>
              (true, ((r : ℚ) / 255, (g : ℚ) / 255, (b : ℚ) / 255, (a : ℚ) / 255))
            | none => (false, ((6 : ℚ)/10, 6/10, 6/10, 6/10))
          else (false, ((6 : ℚ)/10, 6/10, 6/10, 6/10))
        .ok { defaultColor, parseColor, reverseColor, triangleBytes }

/-- `copy_from_slice` at an offset: overwrite `xs.length` entries of `l`
starting at `i`. -/
def writeRange (l : List α) (i : Nat) (xs : List α) : List α :=
  l.take i ++ xs ++ l.drop (i + xs.length)

/-- The 5-bits-per-channel face color decode of `read_binary_triangles`. -/
def decodeFaceColor (reverseColor : Bool) (c : Nat) : Color4 :=
  if reverseColor then
    (((c &&& 0x1f : Nat) : ℚ) / 31, (((c &&& (0x1f <<< 5)) >>> 5 : Nat) : ℚ) / 31,
      (((c &&& (0x1f <<< 10)) >>> 10 : Nat) : ℚ) / 31, 1)
  else
    ((((c &&& (0x1f <<< 10)) >>> 10 : Nat) : ℚ) / 31,
      (((c &&& (0x1f <<< 5)) >>> 5 : Nat) : ℚ) / 31, ((c &&& 0x1f : Nat) : ℚ) / 31, 1)

/-- The per-triangle loop of `read_binary_triangles` restricted to the
parts that advance state: the face written for triangle `k` and the lazy
per-vertex color fill/overwrite. -/
def binColorsFaces (defaultColor : Color4) (hasColorMask : Nat)
    (reverseColor : Bool) (numVertices : Nat) :
    List StlTriangle → Nat → List Color4 → (List Face × List Color4)
  | [], _, colors => ([], colors)
  | t :: rest, vlen, colors =>
    let face : Face := (vlen, vlen + 1, vlen + 2)
    let colors :=
      if t.color &&& hasColorMask ≠ 0 then
        let colors :=
          if colors = [] then List.replicate numVertices defaultColor
          else colors
        let c := decodeFaceColor reverseColor t.color
        writeRange colors vlen [c, c, c]
      else colors
    let (faces, colors) :=
      binColorsFaces defaultColor hasColorMask reverseColor numVertices rest
        (vlen + 3) colors
    (face :: faces, colors)

/-- `stl/mod.rs` `read_binary_triangles`. -/
def readBinaryTriangles (header : BinaryHeader) : Mesh :=
  let ts := (chunks50 (header.triangleBytes.length + 1)
    header.triangleBytes).map readBinaryTriangle
  let numVertices := ts.length * 3
  let hasColorMask := if header.parseColor then 32768 else 0
  let (faces, colors0) :=
    binColorsFaces header.defaultColor hasColorMask header.reverseColor
      numVertices ts 0 []
  { vertices := ts.flatMap (fun t => [t.vertices.1, t.vertices.2.1, t.vertices.2.2])
    normals := ts.flatMap (fun t => [t.normal, t.normal, t.normal])
    faces
    colors0 }

/-- `stl/error.rs` `into_io_error`: every STL error kind becomes an
`InvalidData` I/O error with a location suffix. -/
def stlIntoIoError (_e : StlErrorKind) : IoError :=
  withLocation (invalidData (.inr "stl parse error")) "location"

/-- The ASCII-failure set that falls back to binary parsing (only when no
mesh was parsed yet). -/
def stlFallbackToBinary : StlErrorKind → Bool
  | .notAscii "solid" _ => true
  | .expectedSpace "solid" _ => true
  | .expectedNewline "solid" _ => true
  | .expected "facet" _ => true
  | _ => false

/-- `stl/mod.rs` `from_slice_internal`. -/
def stlFromSliceInternal (bytes : List Nat) (parseColor : Bool) :
    Except IoError Scene :=
  let ascii : Option (Except IoError Scene) :=
    if isAsciiStl bytes then
      match readAsciiStl bytes with
      | .ok meshes =>
        some (.ok
          { materials := meshes.map (fun _ => ({} : Material))
            meshes })
      | .error (e, meshes) =>
        if stlFallbackToBinary e ∧ meshes = [] then none -- fall back to binary
        else some (.error (stlIntoIoError e))
    else none
  match ascii with
  | some r => r
  | none =>
    match readBinaryHeader bytes parseColor with
    | .ok header =>
      let mesh := readBinaryTriangles header
      let material : Material :=
        if header.reverseColor ∧ mesh.colors0 = [] then
          { color :=
              { diffuse := some header.defaultColor
                specular := some header.defaultColor } }
        else {}
      .ok { materials := [material], meshes := [mesh] }
    | .error e => .error (stlIntoIoError e)

-- ---------------------------------------------------------------------------
-- COLLADA core (`collada/scene.rs`): transforms
-- ---------------------------------------------------------------------------

/-- `collada/scene.rs` `Matrix4x4` (row-major, fields as in the source). -/
structure Matrix4x4 where
  a1 : ℚ
  a2 : ℚ
  a3 : ℚ
  a4 : ℚ
  b1 : ℚ
  b2 : ℚ
  b3 : ℚ
  b4 : ℚ
  c1 : ℚ
  c2 : ℚ
  c3 : ℚ
  c4 : ℚ
  d1 : ℚ
  d2 : ℚ
  d3 : ℚ
  d4 : ℚ
  deriving Repr, DecidableEq

/-- `Matrix4x4::new`. -/
def Matrix4x4.new (a1 a2 a3 a4 b1 b2 b3 b4 c1 c2 c3 c4 d1 d2 d3 d4 : ℚ) :
    Matrix4x4 :=
  ⟨a1, a2, a3, a4, b1, b2, b3, b4, c1, c2, c3, c4, d1, d2, d3, d4⟩

/-- `Matrix4x4::default`: the identity. -/
def Matrix4x4.identity : Matrix4x4 :=
  Matrix4x4.new 1 0 0 0 0 1 0 0 0 0 1 0 0 0 0 1

/-- `Matrix4x4::translation`. -/
def Matrix4x4.translation (v : Vec3) : Matrix4x4 :=
  { Matrix4x4.identity with a4 := v.1, b4 := v.2.1, c4 := v.2.2 }

/-- `impl ops::MulAssign for Matrix4x4`: `t *= m` leaves `t * m` (row `i`
of the old `t` dotted with column `j` of `m`). -/
def Matrix4x4.mulMat (t m : Matrix4x4) : Matrix4x4 :=
  { a1 := m.a1 * t.a1 + m.b1 * t.a2 + m.c1 * t.a3 + m.d1 * t.a4
    a2 := m.a2 * t.a1 + m.b2 * t.a2 + m.c2 * t.a3 + m.d2 * t.a4
    a3 := m.a3 * t.a1 + m.b3 * t.a2 + m.c3 * t.a3 + m.d3 * t.a4
    a4 := m.a4 * t.a1 + m.b4 * t.a2 + m.c4 * t.a3 + m.d4 * t.a4
    b1 := m.a1 * t.b1 + m.b1 * t.b2 + m.c1 * t.b3 + m.d1 * t.b4
    b2 := m.a2 * t.b1 + m.b2 * t.b2 + m.c2 * t.b3 + m.d2 * t.b4
    b3 := m.a3 * t.b1 + m.b3 * t.b2 + m.c3 * t.b3 + m.d3 * t.b4
    b4 := m.a4 * t.b1 + m.b4 * t.b2 + m.c4 * t.b3 + m.d4 * t.b4
    c1 := m.a1 * t.c1 + m.b1 * t.c2 + m.c1 * t.c3 + m.d1 * t.c4
    c2 := m.a2 * t.c1 + m.b2 * t.c2 + m.c2 * t.c3 + m.d2 * t.c4
    c3 := m.a3 * t.c1 + m.b3 * t.c2 + m.c3 * t.c3 + m.d3 * t.c4
    c4 := m.a4 * t.c1 + m.b4 * t.c2 + m.c4 * t.c3 + m.d4 * t.c4
    d1 := m.a1 * t.d1 + m.b1 * t.d2 + m.c1 * t.d3 + m.d1 * t.d4
    d2 := m.a2 * t.d1 + m.b2 * t.d2 + m.c2 * t.d3 + m.d2 * t.d4
    d3 := m.a3 * t.d1 + m.b3 * t.d2 + m.c3 * t.d3 + m.d3 * t.d4
    d4 := m.a4 * t.d1 + m.b4 * t.d2 + m.c4 * t.d3 + m.d4 * t.d4 }

/-- `impl ops::MulAssign<Matrix4x4> for [f32; 3]` (`scene.rs:314-321`):
note that the source drops the translation column `a4/b4/c4`. -/
def vecMulMat (v : Vec3) (m : Matrix4x4) : Vec3 :=
  (m.a1 * v.1 + m.a2 * v.2.1 + m.a3 * v.2.2,
   m.b1 * v.1 + m.b2 * v.2.1 + m.b3 * v.2.2,
   m.c1 * v.1 + m.c2 * v.2.1 + m.c3 * v.2.2)

/-- The mathematical affine application of a `Matrix4x4` to a point (the
reading the spec's transform-composition property uses: the translation
column contributes). -/
def affineApply (m : Matrix4x4) (v : Vec3) : Vec3 :=
  (m.a1 * v.1 + m.a2 * v.2.1 + m.a3 * v.2.2 + m.a4,
   m.b1 * v.1 + m.b2 * v.2.1 + m.b3 * v.2.2 + m.b4,
   m.c1 * v.1 + m.c2 * v.2.1 + m.c3 * v.2.2 + m.c4)

/-- Transcendental operations kept abstract (ℚ has no `cos`/`sin`/`sqrt`/π;
the claims settled here involve no rotation or lookat transform). -/
structure TrigOps where
  cos : ℚ → ℚ
  sin : ℚ → ℚ
  sqrt : ℚ → ℚ
  pi : ℚ

/-- `collada/scene.rs` `Transform`. -/
inductive Transform where
  | lookat (f : List ℚ) -- 9 values
  | rotate (f : ℚ × ℚ × ℚ × ℚ) -- axis + degrees
  | translate (f : Vec3)
  | scale (f : Vec3)
  | skew (f : List ℚ) -- 7 values, stubbed in the source
  | matrixT (f : List ℚ) -- 16 values

/-- `Matrix4x4::rotation` (angle already in radians; `c`/`s` via the
abstract trig operations). -/
def Matrix4x4.rotation (ops : TrigOps) (a : ℚ) (axis : Vec3) : Matrix4x4 :=
  let c := ops.cos a
  let s := ops.sin a
  let t := 1 - c
  let x := axis.1
  let y := axis.2.1
  let z := axis.2.2
  Matrix4x4.new
    (t * x * x + c) (t * x * y - s * z) (t * x * z + s * y) 0
    (t * x * y + s * z) (t * y * y + c) (t * y * z - s * x) 0
    (t * x * z - s * y) (t * y * z + s * x) (t * z * z + c) 0
    0 0 0 1

/-- `calculate_transform`'s `sub` helper. -/
def vecSub (a b : Vec3) : Vec3 := (a.1 - b.1, a.2.1 - b.2.1, a.2.2 - b.2.2)

/-- `calculate_transform`'s `cross_product` helper, embedded exactly as
written: all three computed components overwrite `r[0]`, so the result is
`(a0·b1 − a1·b0, 0, 0)`. -/
def crossProductAsWritten (a b : Vec3) : Vec3 :=
  (a.1 * b.2.1 - a.2.1 * b.1, 0, 0)

/-- `calculate_transform`'s `normalize` helper, embedded exactly as
written: the components are divided by `inv_len = 1/len`, i.e. multiplied
by the length. -/
def normalizeAsWritten (ops : TrigOps) (v : Vec3) : Vec3 :=
  let squareLen := v.1 * v.1 + v.2.1 * v.2.1 + v.2.2 * v.2.2
  let len := ops.sqrt squareLen
  if len = 0 then v
  else
    let invLen := 1 / len
    (v.1 / invLen, v.2.1 / invLen, v.2.2 / invLen)

/-- Build the matrix of one `Transform` (the per-arm bodies of
`calculate_transform`). -/
def transformMatrix (ops : TrigOps) : Transform → Option Matrix4x4
  | .lookat f =>
    let g := fun i => f.getD i 0
    let pos : Vec3 := (g 0, g 1, g 2)
    let dstPos : Vec3 := (g 3, g 4, g 5)
    let up := normalizeAsWritten ops (g 6, g 7, g 8)
    let dir := normalizeAsWritten ops (vecSub dstPos pos)
    let right := normalizeAsWritten ops (crossProductAsWritten dir up)
    some (Matrix4x4.new
      right.1 up.1 (-dir.1) pos.1
      right.2.1 up.2.1 (-dir.2.1) pos.2.1
      right.2.2 up.2.2 (-dir.2.2) pos.2.2
      0 0 0 1)
  | .rotate f =>
    let angle := f.2.2.2 * ops.pi / 180
    some (Matrix4x4.rotation ops angle (f.1, f.2.1, f.2.2.1))
  | .translate f => some (Matrix4x4.translation f)
  | .scale f =>
    some (Matrix4x4.new f.1 0 0 0 0 f.2.1 0 0 0 0 f.2.2 0 0 0 0 1)
  | .skew _ => none -- TODO in the source: skew is ignored
  | .matrixT f =>
    let g := fun i => f.getD i 0
    some (Matrix4x4.new (g 0) (g 1) (g 2) (g 3) (g 4) (g 5) (g 6) (g 7)
      (g 8) (g 9) (g 10) (g 11) (g 12) (g 13) (g 14) (g 15))

/-- `collada/scene.rs` `Transform::calculate_transform`: post-multiply the
per-element matrices in source order (`out *= m`); identity when no
transform contributes. -/
def calculateTransform (ops : TrigOps) (transforms : List Transform) :
    Matrix4x4 :=
  let out := transforms.foldl
    (fun out t =>
      match transformMatrix ops t with
      | some m =>
        match out with
        | some o => some (o.mulMat m)
        | none => some m
      | none => out)
    none
  out.getD Matrix4x4.identity

-- ---------------------------------------------------------------------------
-- COLLADA core: semantic AST (`collada/mod.rs`, `collada/geometry.rs`,
-- `collada/scene.rs`) and the instance phase (`collada/iter.rs`,
-- `collada/instance.rs`)
-- ---------------------------------------------------------------------------

/-- A Rust panic (`assert!` failure, `unwrap`/`expect` on a missing value,
`todo!`): kept distinct from returned `io::Error`s. -/
inductive RPanic where
  | panic (msg : String)
  deriving Repr, DecidableEq

/-- `<accessor>` (`collada/mod.rs` `Accessor`): `count`, `stride`, and the
URI of the backing array. -/
structure CAccessor where
  count : Nat
  stride : Nat
  source : String
  deriving Repr, DecidableEq

/-- `collada/mod.rs` `ArrayData`. -/
inductive CArrayData where
  | float (data : List ℚ)
  | strings (data : List String)
  deriving Repr, DecidableEq

/-- `ArrayData::as_float`. -/
def CArrayData.asFloat : CArrayData → Option (List ℚ)
  | .float d => some d
  | .strings _ => none

/-- `<input>` (unshared): the source URI (the semantic is encoded by the
slot the input occupies). -/
structure CUnsharedInput where
  source : String
  deriving Repr, DecidableEq

/-- `geometry.rs` `VerticesInputs`. -/
structure CVerticesInputs where
  position : CUnsharedInput
  normal : Option CUnsharedInput := none
  texcoord : Option CUnsharedInput := none
  color : Option CUnsharedInput := none
  deriving Repr, DecidableEq

/-- `geometry.rs` `Vertices`. -/
structure CVertices where
  id : String
  input : CVerticesInputs
  deriving Repr, DecidableEq

/-- `<input>` (shared): offset, source URI, set. -/
structure CSharedInput where
  offset : Nat
  source : String
  set : Nat := 0
  deriving Repr, DecidableEq

/-- `geometry.rs` `PrimitiveType`. -/
inductive CPrimitiveType where
  | lines
  | lineStrips
  | polygons
  | polylist
  | triangles
  | triFans
  | triStrips
  deriving Repr, DecidableEq

/-- `geometry.rs` `PrimitiveInputs`. -/
structure CPrimitiveInputs where
  vertex : CSharedInput
  normal : Option CSharedInput := none
  color : Option CSharedInput := none
  texcoord : List CSharedInput := []
  deriving Repr, DecidableEq

/-- `geometry.rs` `Primitive` (normalized polylist representation). -/
structure CPrimitive where
  ty : CPrimitiveType
  count : Nat
  material : Option String := none
  input : Option CPrimitiveInputs := none
  vcount : List Nat := []
  p : List Nat := []
  stride : Nat := 0
  deriving Repr, DecidableEq

/-- `geometry.rs` `Mesh`. -/
structure CGeoMesh where
  vertices : CVertices
  primitives : List CPrimitive
  deriving Repr, DecidableEq

/-- `geometry.rs` `Geometry`. -/
structure CGeometry where
  id : String
  mesh : CGeoMesh
  deriving Repr, DecidableEq

/-- `<asset>`: the `meter` unit scale. -/
structure CAsset where
  unit : ℚ := 1
  deriving Repr, DecidableEq

/-- `scene.rs` `Node`: parent back-link, composed local transform, and the
geometry-instance URLs. -/
structure CNode where
  id : Option String := none
  parent : Option Nat := none
  transform : Matrix4x4 := Matrix4x4.identity
  instanceGeometry : List String := []

/-- The parts of `Document` the instance phase reads. -/
structure CDoc where
  asset : CAsset := {}
  geometries : List (String × CGeometry) := []
  accessors : List (String × CAccessor) := []
  arrayData : List (String × CArrayData) := []
  nodes : List CNode := []

/-- `HashMap`/`BTreeMap` `get` on a keyed association list. -/
def assocGet (m : List (String × α)) (k : String) : Option α :=
  (m.find? (fun p => decide (p.1 = k))).map (·.2)

/-- `Document`'s `ops::Index` (`doc[&uri]`): panics with "no entry found
for key" when the URI is dangling. -/
def docIndexAccessor (doc : CDoc) (uri : String) : Except RPanic CAccessor :=
  match assocGet doc.accessors uri with
  | some a => .ok a
  | none => .error (.panic "no entry found for key")

/-- `doc[&uri]` for array data. -/
def docIndexArrayData (doc : CDoc) (uri : String) : Except RPanic CArrayData :=
  match assocGet doc.arrayData uri with
  | some a => .ok a
  | none => .error (.panic "no entry found for key")

/-- Resolve an accessor to its float array and slice it into
`count`-many `stride`-wide records, keeping the first `width` entries of
each record; the two `assert!`s of `Primitive::positions` /
`Primitive::texcoords` (`iter.rs:88-105,132-160`) are Rust panics, not
returned errors. -/
def accessorRecords (doc : CDoc) (acc : CAccessor) (width : Nat) :
    Except RPanic (List (List ℚ)) := do
  let dataArr ← docIndexArrayData doc acc.source
  match dataArr.asFloat with
  | none => .error (.panic "as_float().unwrap()")
  | some data =>
    if ¬ acc.stride ≥ width then .error (.panic "assertion failed: stride")
    else if ¬ acc.count * acc.stride ≤ data.length then
      .error (.panic "assertion failed: count * stride <= data.len()")
    else
      .ok ((List.range acc.count).map (fun k =>
        (List.range width).map (fun j => data.getD (k * acc.stride + j) 0)))

/-- `iter.rs` `Primitive::positions`: resolve the `POSITION` unshared input
of the `<vertices>` the primitive's `VERTEX` input points at
(stride ≥ 3 asserted). -/
def primPositions (doc : CDoc) (geometry : CGeometry) (prim : CPrimitive) :
    Except RPanic (List Vec3) := do
  match prim.input with
  | none => .ok []
  | some input =>
    if geometry.mesh.vertices.id = input.vertex.source then do
      let acc ← docIndexAccessor doc geometry.mesh.vertices.input.position.source
      let recs ← accessorRecords doc acc 3
      .ok (recs.map (fun r => (r.getD 0 0, r.getD 1 0, r.getD 2 0)))
    else .error (.panic "todo: search other mesh's vertices")

/-- `iter.rs` `Primitive::normals`: the primitive's own `NORMAL` input, or
the `<vertices>` `NORMAL` input, or nothing (stride ≥ 3 asserted). -/
def primNormals (doc : CDoc) (geometry : CGeometry) (prim : CPrimitive) :
    Except RPanic (List Vec3) := do
  match prim.input with
  | none => .ok []
  | some input =>
    let accUri : Except RPanic (Option String) :=
      match input.normal with
      | some normal => .ok (some normal.source)
      | none =>
        if geometry.mesh.vertices.id = input.vertex.source then
          match geometry.mesh.vertices.input.normal with
          | some normal => .ok (some normal.source)
          | none => .ok none
        else .error (.panic "todo: search other mesh's vertices")
    match ← accUri with
    | none => .ok []
    | some uri => do
      let acc ← docIndexAccessor doc uri
      let recs ← accessorRecords doc acc 3
      .ok (recs.map (fun r => (r.getD 0 0, r.getD 1 0, r.getD 2 0)))

/-- `iter.rs` `Primitive::texcoords(set)` (stride ≥ 2 asserted). -/
def primTexcoords (doc : CDoc) (geometry : CGeometry) (prim : CPrimitive)
    (set : Nat) : Except RPanic (List Vec2) := do
  match prim.input with
  | none => .ok []
  | some input =>
    let accUri : Except RPanic (Option String) :=
      match input.texcoord.get? set with
      | some texcoord => .ok (some texcoord.source)
      | none =>
        if set = 0 then
          if geometry.mesh.vertices.id = input.vertex.source then
            match geometry.mesh.vertices.input.texcoord with
            | some texcoord => .ok (some texcoord.source)
            | none => .ok none
          else .error (.panic "todo: search other mesh's vertices")
        else .ok none
    match ← accUri with
    | none => .ok []
    | some uri => do
      let acc ← docIndexAccessor doc uri
      let recs ← accessorRecords doc acc 2
      .ok (recs.map (fun r => (r.getD 0 0, r.getD 1 0)))

/-- Modelled from the spec: `Primitive::colors`, invoked by `build_mesh`
(`instance.rs:37`) but absent from the `iter.rs` under `src/`; per §4.9 the
`COLOR` semantic stream resolves like the `NORMAL` one (stride ≥ 3,
RGB float3 records). -/
def primColors (doc : CDoc) (geometry : CGeometry) (prim : CPrimitive) :
    Except RPanic (List Vec3) := do
  match prim.input with
  | none => .ok []
  | some input =>
    let accUri : Except RPanic (Option String) :=
      match input.color with
      | some color => .ok (some color.source)
      | none =>
        if geometry.mesh.vertices.id = input.vertex.source then
          match geometry.mesh.vertices.input.color with
          | some color => .ok (some color.source)
          | none => .ok none
        else .error (.panic "todo: search other mesh's vertices")
    match ← accUri with
    | none => .ok []
    | some uri => do
      let acc ← docIndexAccessor doc uri
      let recs ← accessorRecords doc acc 3
      .ok (recs.map (fun r => (r.getD 0 0, r.getD 1 0, r.getD 2 0)))

/-- `iter.rs` `vertex_indices`/`normal_indices`/`texcoord_indices` for the
`<triangles>` primitive type: face `k` reads the `offset`-th entry of index
chunks `3k`, `3k+1`, `3k+2` (the parser validated
`p.len() = count·3·stride`). Claims involving other primitive types are
not needed here, so only this arm of the iterator is embedded. -/
def triangleIndices (prim : CPrimitive) (offset : Nat) : List Face :=
  (List.range prim.count).map (fun k =>
    (prim.p.getD ((3 * k) * prim.stride + offset) 0,
     prim.p.getD ((3 * k + 1) * prim.stride + offset) 0,
     prim.p.getD ((3 * k + 2) * prim.stride + offset) 0))

/-- `vertex_indices` (offset of the `VERTEX` input; empty without
inputs). -/
def primVertexIndices (prim : CPrimitive) : List Face :=
  match prim.input with
  | none => []
  | some input => triangleIndices prim input.vertex.offset

/-- `normal_indices`: the `NORMAL` shared input's offset, or the `VERTEX`
offset when the normals come from `<vertices>`. -/
def primNormalIndices (geometry : CGeometry) (prim : CPrimitive) : List Face :=
  match prim.input with
  | none => []
  | some input =>
    match input.normal with
    | some normal => triangleIndices prim normal.offset
    | none =>
      if geometry.mesh.vertices.id = input.vertex.source ∧
          geometry.mesh.vertices.input.normal.isSome then
        triangleIndices prim input.vertex.offset
      else []

/-- `texcoord_indices(set)`. -/
def primTexcoordIndices (geometry : CGeometry) (prim : CPrimitive)
    (set : Nat) : List Face :=
  match prim.input with
  | none => []
  | some input =>
    match input.texcoord.get? set with
    | some texcoord => triangleIndices prim texcoord.offset
    | none =>
      if geometry.mesh.vertices.id = input.vertex.source ∧
          geometry.mesh.vertices.input.texcoord.isSome then
        triangleIndices prim input.vertex.offset
      else []

/-- Modelled from the spec: `color_indices`, like `normal_indices` for the
`COLOR` semantic (see `primColors`). -/
def primColorIndices (geometry : CGeometry) (prim : CPrimitive) : List Face :=
  match prim.input with
  | none => []
  | some input =>
    match input.color with
    | some color => triangleIndices prim color.offset
    | none =>
      if geometry.mesh.vertices.id = input.vertex.source ∧
          geometry.mesh.vertices.input.color.isSome then
        triangleIndices prim input.vertex.offset
      else []

/-- Look a position up by (possibly out-of-range) index: `p[i]` panics on
out-of-bounds in the source. -/
def indexPanic (l : List α) (i : Nat) : Except RPanic α :=
  match l.get? i with
  | some v => .ok v
  | none => .error (.panic "index out of bounds")

/-- The per-face body of the `build_mesh` emit loop (`instance.rs:44-123`):
three unit-scaled positions are pushed per face corner, the aligned
`k`-th normal/texcoord/color index triple is consumed when the
corresponding stream is non-empty (`panic!()` when exhausted), and the
face `[prev+idx, prev+idx+1, prev+idx+2]` is appended.  The node world
transform is *not* applied anywhere in this loop — positions are scaled by
`doc.asset.unit` only. -/
def buildMeshFace (doc : CDoc) (mesh : Mesh) (prevPositionsLen : Nat)
    (p n : List Vec3) (t : List Vec2) (c : List Vec3)
    (nIdx tIdx cIdx : List Face) (k : Nat) (vertex : Face) :
    Except RPanic Mesh := do
  let scale := fun (v : Vec3) =>
    (v.1 * doc.asset.unit, v.2.1 * doc.asset.unit, v.2.2 * doc.asset.unit)
  let p0 ← indexPanic p vertex.1
  let p1 ← indexPanic p vertex.2.1
  let p2 ← indexPanic p vertex.2.2
  let mesh := { mesh with vertices := mesh.vertices ++ [scale p0, scale p1, scale p2] }
  let mesh ←
    if n ≠ [] then
      match nIdx.get? k with
      | some normal => do
        let n0 ← indexPanic n normal.1
        let n1 ← indexPanic n normal.2.1
        let n2 ← indexPanic n normal.2.2
        .ok { mesh with normals := mesh.normals ++ [n0, n1, n2] }
      | none => .error (.panic "panic!()")
    else .ok mesh
  let mesh ←
    if t ≠ [] then
      match tIdx.get? k with
      | some texcoord => do
        let t0 ← indexPanic t texcoord.1
        let t1 ← indexPanic t texcoord.2.1
        let t2 ← indexPanic t texcoord.2.2
        .ok { mesh with texcoords0 := mesh.texcoords0 ++ [t0, t1, t2] }
      | none => .error (.panic "panic!()")
    else .ok mesh
  let mesh ←
    if c ≠ [] then
      match cIdx.get? k with
      | some rgb => do
        let c0 ← indexPanic c rgb.1
        let c1 ← indexPanic c rgb.2.1
        let c2 ← indexPanic c rgb.2.2
        .ok { mesh with colors0 := mesh.colors0 ++
          [(c0.1, c0.2.1, c0.2.2, 1), (c1.1, c1.2.1, c1.2.2, 1),
           (c2.1, c2.2.1, c2.2.2, 1)] }
      | none => .error (.panic "panic!()")
    else .ok mesh
  let idx := 3 * k
  .ok { mesh with faces := mesh.faces ++
    [(prevPositionsLen + idx, prevPositionsLen + (idx + 1),
      prevPositionsLen + (idx + 2))] }

/-- Fold `buildMeshFace` over the faces of one primitive. -/
def buildMeshFaces (doc : CDoc) (mesh : Mesh) (prevPositionsLen : Nat)
    (p n : List Vec3) (t : List Vec2) (c : List Vec3)
    (nIdx tIdx cIdx : List Face) (k : Nat) :
    List Face → Except RPanic Mesh
  | [] => .ok mesh
  | vertex :: rest => do
    let mesh ← buildMeshFace doc mesh prevPositionsLen p n t c nIdx tIdx cIdx
      k vertex
    buildMeshFaces doc mesh prevPositionsLen p n t c nIdx tIdx cIdx (k + 1) rest

/-- One primitive of the `build_mesh` loop. -/
def buildMeshPrimitive (doc : CDoc) (geometry : CGeometry) (mesh : Mesh)
    (prim : CPrimitive) : Except RPanic Mesh := do
  let prevPositionsLen := truncCast 32 mesh.vertices.length
  let p ← primPositions doc geometry prim
  let n ← primNormals doc geometry prim
  let t ← primTexcoords doc geometry prim 0
  let c ← primColors doc geometry prim
  let positionsIndices := primVertexIndices prim
  let normalIndices := primNormalIndices geometry prim
  let texcoordIndices := primTexcoordIndices geometry prim 0
  let colorIndices := primColorIndices geometry prim
  buildMeshFaces doc mesh prevPositionsLen p n t c normalIndices
    texcoordIndices colorIndices 0 positionsIndices

/-- `instance.rs` `build_mesh`. -/
def buildMesh (doc : CDoc) (geometry : CGeometry) : Except RPanic Mesh := do
  let mesh : Mesh := { name := bytesOfAscii geometry.id }
  let rec go (mesh : Mesh) : List CPrimitive → Except RPanic Mesh
    | [] => .ok mesh
    | prim :: rest => do
      let mesh ← buildMeshPrimitive doc geometry mesh prim
      go mesh rest
  go mesh geometry.mesh.primitives

/-- `instance.rs` `build`: one mesh and one material per geometry (the
material content assembled by `build_material` does not bear on any claim
and is defaulted here). -/
def instanceBuild (doc : CDoc) : Except RPanic Scene := do
  let rec go (meshes : List Mesh) (materials : List Material) :
      List (String × CGeometry) → Except RPanic Scene
    | [] => .ok { materials, meshes }
    | (_, geometry) :: rest => do
      let mesh ← buildMesh doc geometry
      go (meshes ++ [mesh]) (materials ++ [({} : Material)]) rest
  go [] [] doc.geometries

-- ---------------------------------------------------------------------------
-- Loader front-end (`loader.rs`)
-- ---------------------------------------------------------------------------

/-- `loader.rs` `Loader::post_process`: when `merge_meshes` is set and the
scene does not already have exactly one mesh, replace the meshes by their
merge and the material table by one default material. -/
def postProcess (mergeMeshes : Bool) (scene : Scene) : Scene :=
  if mergeMeshes ∧ scene.meshes.length ≠ 1 then
    { meshes := [Mesh.merge scene.meshes], materials := [({} : Material)] }
  else scene

/-- `loader.rs` `FileType`. -/
inductive FileType where
  | stl
  | collada
  | obj
  | unknown
  deriving Repr, DecidableEq

/-- The content-scanning fallback loop of `detect_file_type` over the first
1024 bytes: `solid` ⇒ STL, `<COLLADA` ⇒ COLLADA. -/
def detectScan : List Nat → FileType
  | [] => .unknown
  | c :: sNext =>
    if c = 115 ∧ (bytesOfAscii "olid").isPrefixOf sNext then .stl
    else if c = 60 ∧ (bytesOfAscii "<COLLADA").isPrefixOf (c :: sNext) then
      .collada
    else detectScan sNext

/-- `loader.rs` `detect_file_type`.  The path extension
(`path.extension().and_then(OsStr::to_str)`) is modelled as an
`Option String` parameter. -/
def detectFileType (ext : Option String) (bytes : List Nat) : FileType :=
  match ext with
  | some "stl" | some "STL" => .stl
  | some "dae" | some "DAE" => .collada
  | some "obj" | some "OBJ" => .obj
  | _ => detectScan (bytes.take 1024)

/-- The loader configuration (`Loader`'s `merge_meshes` and
`stl_parse_color` flags). -/
structure LoaderCfg where
  mergeMeshes : Bool := false
  stlParseColor : Bool := false

/-- `Loader::load_stl_from_slice`. -/
def loadStlFromSlice (cfg : LoaderCfg) (bytes : List Nat) :
    Except IoError Scene :=
  (stlFromSliceInternal bytes cfg.stlParseColor).map (postProcess cfg.mergeMeshes)

/-- `Loader::load_obj_from_slice_with_reader` (the MTL parser stays a
parameter, see `objFromSlice`). -/
def loadObjFromSliceWithReader (cfg : LoaderCfg)
    (readMtl : List Nat → MtlCallback)
    (reader : List Nat → Except IoError (List Nat))
    (objDir : Option (List Nat)) (bytes : List Nat) :
    Except IoError Scene :=
  (objFromSlice readMtl reader objDir bytes).map (postProcess cfg.mergeMeshes)

/-- `Loader::load_collada_from_slice`; `colladaCore` stands for
`collada::from_slice_internal` (UTF decode, external XML tree parse,
`Document::parse`, instance build), which is not embedded at the byte
level. -/
def loadColladaFromSlice (cfg : LoaderCfg)
    (colladaCore : List Nat → Except IoError Scene) (bytes : List Nat) :
    Except IoError Scene :=
  (colladaCore bytes).map (postProcess cfg.mergeMeshes)

/-- `Loader::load_from_slice_with_reader` with all format features
enabled: detect the file type, dispatch, post-process.  Unknown file types
produce an `Unsupported`-kind error. -/
def loadFromSliceWithReader (cfg : LoaderCfg)
    (colladaCore : List Nat → Except IoError Scene)
    (readMtl : List Nat → MtlCallback)
    (reader : List Nat → Except IoError (List Nat))
    (ext : Option String) (objDir : Option (List Nat)) (bytes : List Nat) :
    Except IoError Scene :=
  match detectFileType ext bytes with
  | .stl => loadStlFromSlice cfg bytes
  | .collada => loadColladaFromSlice cfg colladaCore bytes
  | .obj => loadObjFromSliceWithReader cfg readMtl reader objDir bytes
  | .unknown =>
    .error { kind := .unsupported, msg := "unsupported or unrecognized file type" }

/-- The kind of a returned error, if any. -/
def errKind : Except IoError α → Option IoErrorKind
  | .error e => some e.kind
  | .ok _ => none

/-- `Loader::load_with_reader` (`loader.rs`): read the main file through
the caller-supplied reader — `reader(path)?` propagates a reader failure
verbatim — then hand the bytes to `load_from_slice_with_reader`.
`load`, `load_stl`, `load_collada` and `load_obj(_with_reader)` read the
main file through the same `reader(path)?` pattern. -/
def loadWithReader (cfg : LoaderCfg)
    (colladaCore : List Nat → Except IoError Scene)
    (readMtl : List Nat → MtlCallback)
    (reader : List Nat → Except IoError (List Nat))
    (ext : Option String) (objDir : Option (List Nat)) (path : List Nat) :
    Except IoError Scene := do
  let bytes ← reader path
  loadFromSliceWithReader cfg colladaCore readMtl reader ext objDir bytes

/-- Channel relation of meshes assembled by the COLLADA `build_mesh`
primitive loop: per-vertex channels never exceed the vertices, the second
texcoord/color sets stay empty. -/
def colladaChanBound (m : Mesh) : Prop :=
  m.normals.length ≤ m.vertices.length ∧
  m.texcoords0.length ≤ m.vertices.length ∧
  m.colors0.length ≤ m.vertices.length ∧
  m.texcoords1 = [] ∧ m.colors1 = []

/-- C2 COLLADA counter-input: one geometry with two `<triangles>`
primitives, the first with a `NORMAL` input, the second without. -/
def geoC2dae : CGeometry :=
  { id := "g2"
    mesh :=
      { vertices := { id := "verts", input := { position := ⟨"pacc"⟩ } }
        primitives :=
          [{ ty := .triangles, count := 1,
             input := some
               { vertex := { offset := 0, source := "verts" },
                 normal := some { offset := 1, source := "nacc" } },
             p := [0, 0, 1, 0, 2, 0], stride := 2 },
           { ty := .triangles, count := 1,
             input := some { vertex := { offset := 0, source := "verts" } },
             p := [0, 1, 2], stride := 1 }] } }

/-- The document holding `geoC2dae` and its two accessors. -/
def docC2dae : CDoc :=
  { geometries := [("g2", geoC2dae)]
    accessors := [("pacc", ⟨3, 3, "parr"⟩), ("nacc", ⟨1, 3, "narr"⟩)]
    arrayData :=
      [("parr", .float [0, 0, 0, 1, 0, 0, 0, 1, 0]),
       ("narr", .float [1, 0, 0])] }

-- ---------------------------------------------------------------------------
-- Spec-side definitions (stated from the spec's words, for comparison with
-- the embedded code) and concrete claim inputs
-- ---------------------------------------------------------------------------

/-- The faces of a mesh are the consecutive index triples
`(3k, 3k+1, 3k+2)`. -/
def consecutiveTriples (faces : List Face) : Prop :=
  faces = (List.range faces.length).map (fun k => (3 * k, 3 * k + 1, 3 * k + 2))

/-- Spec side of C6: the per-vertex color array the claim describes — for
every face, three copies of either the decoded 15-bit face color (bit 15
set) or the header default. -/
def perFaceColorSpec (defaultColor : Color4) (reverseColor : Bool)
    (ts : List StlTriangle) : List Color4 :=
  ts.flatMap (fun t =>
    let c :=
      if t.color &&& 32768 ≠ 0 then decodeFaceColor reverseColor t.color
      else defaultColor
    [c, c, c])

/-- Whether some triangle of a binary STL record list is color-flagged. -/
def anyColored (ts : List StlTriangle) : Bool :=
  ts.any (fun t => t.color &&& 32768 ≠ 0)

/-- The triangle records of a binary header. -/
def headerTriangles (header : BinaryHeader) : List StlTriangle :=
  (chunks50 (header.triangleBytes.length + 1) header.triangleBytes).map
    readBinaryTriangle

/-- C2 counterexample input: two OBJ groups, the first with per-corner
normals, the second without. -/
def objInputC2 : List Nat :=
  bytesOfAscii
    "v 0 0 0\nv 0 0 0\nv 0 0 0\nvn 1 0 0\nf 1//1 2//1 3//1\ng b\nf 1 2 3\n"

/-- C4 failing input: three OBJ groups with 2, 1 and 1 triangles. -/
def objInputC4 : List Nat :=
  bytesOfAscii
    "v 0 0 0\nv 0 0 0\nv 0 0 0\nf 1 2 3\nf 1 2 3\ng b\nf 1 2 3\ng c\nf 1 2 3\n"

/-- C10 input: consecutive `g` lines with no faces. -/
def objInputC10 : List Nat := bytesOfAscii "g a\ng b\ng c\n"

/-- C5 witness input (spec seed scenario 3). -/
def objInputC5 : List Nat := bytesOfAscii "v 1 2 3\nv 4 5 6\nv 7 8 9\nf 1 2 3\n"

/-- An 80-byte binary STL header carrying `COLOR=` `C0 C0 C0 FF`. -/
def stlHeaderC6 : List Nat :=
  bytesOfAscii "COLOR=" ++ [0xC0, 0xC0, 0xC0, 0xFF] ++ List.replicate 70 0

/-- A 50-byte all-zero triangle record with the given attribute word. -/
def stlTriRecord (attr : Nat) : List Nat :=
  List.replicate 48 0 ++ [attr % 256, attr / 256]

/-- C6 counterexample input: `COLOR=`-selected header, `parse_color`
requested, one triangle whose attribute word has bit 15 clear. -/
def stlInputC6 : List Nat := stlHeaderC6 ++ [1, 0, 0, 0] ++ stlTriRecord 0

/-- C6 witness input: same header, one uncolored and one colored
triangle. -/
def stlInputC6w : List Nat :=
  stlHeaderC6 ++ [2, 0, 0, 0] ++ stlTriRecord 0 ++ stlTriRecord 0x8000

/-- C1/C7 geometry: one `<triangles>` primitive over a 3-float-stride
positions accessor. -/
def geoC1 : CGeometry :=
  { id := "g"
    mesh :=
      { vertices := { id := "verts", input := { position := ⟨"acc"⟩ } }
        primitives :=
          [{ ty := .triangles, count := 1,
             input := some { vertex := { offset := 0, source := "verts" } },
             p := [0, 1, 2], stride := 1 }] } }

/-- C1 document: unit 1, the geometry above, and (in the theorem) an
arbitrary node list — the claim's `<translate>(1,2,3)` `<scale>(2,2,2)`
node is one instance. -/
def docC1 : CDoc :=
  { asset := {}
    geometries := [("g", geoC1)]
    accessors := [("acc", ⟨3, 3, "arr"⟩)]
    arrayData := [("arr", .float [1, 1, 1, 2, 2, 2, 3, 3, 3])]
    nodes := [] }

/-- C7 counterexample geometry (two triangles declared). -/
def geoC7 : CGeometry :=
  { id := "g"
    mesh :=
      { vertices := { id := "verts", input := { position := ⟨"acc"⟩ } }
        primitives :=
          [{ ty := .triangles, count := 2,
             input := some { vertex := { offset := 0, source := "verts" } },
             p := [0, 1, 2, 0, 1, 2], stride := 1 }] } }

/-- C7 counterexample document: the accessor declares `count=2, stride=3`
over a 3-element float array — `count × stride = 6 > 3`. -/
def docC7 : CDoc :=
  { geometries := [("g", geoC7)]
    accessors := [("acc", ⟨2, 3, "arr"⟩)]
    arrayData := [("arr", .float [1, 1, 1])] }

/-- The faces list produced by `k` triangle emissions of `push_mesh`: the
`u32`-truncated consecutive triples. -/
def truncFaces (k : Nat) : List Face :=
  (List.range k).map fun i =>
    (truncCast 32 (3 * i), truncCast 32 (3 * i + 1), truncCast 32 (3 * i + 2))

/-- Invariant of the mesh being built by the `push_mesh` emit loop. -/
def buildInv (m : Mesh) : Prop :=
  m.vertices.length = 3 * m.faces.length ∧
  m.faces = truncFaces m.faces.length ∧
  m.texcoords1 = [] ∧ m.colors1 = []

/-- Shape of every mesh emitted by the OBJ parser's `push_mesh`: the
triangulation invariant plus the enforced channel-length checks. -/
def objMeshOk (m : Mesh) : Prop :=
  buildInv m ∧
  (m.normals = [] ∨ m.normals.length = m.vertices.length) ∧
  (m.texcoords0 = [] ∨ m.texcoords0.length = m.vertices.length) ∧
  (m.colors0 = [] ∨ m.colors0.length = m.vertices.length)

/-- The single primitive of `geoC7`, as the C7 witness instantiates it. -/
def primC7 : CPrimitive :=
  { ty := .triangles, count := 2,
    input := some { vertex := { offset := 0, source := "verts" } },
    p := [0, 1, 2, 0, 1, 2], stride := 1 }

/-- A concrete binary-STL header record for the C6 witness: default color
from `COLOR=C0C0C0FF`, `parse_color` on, one uncolored and one colored
triangle. -/
def headerC6w : BinaryHeader :=
  { defaultColor := (192/255, 192/255, 192/255, 1), parseColor := true,
    reverseColor := false,
    triangleBytes := stlTriRecord 0 ++ stlTriRecord 0x8000 }

/-- Amended C2 channel invariant: each attribute channel is empty or
exactly `|vertices|` long. -/
def chanExact (m : Mesh) : Prop :=
  (m.normals = [] ∨ m.normals.length = m.vertices.length) ∧
  (m.texcoords0 = [] ∨ m.texcoords0.length = m.vertices.length) ∧
  (m.texcoords1 = [] ∨ m.texcoords1.length = m.vertices.length) ∧
  (m.colors0 = [] ∨ m.colors0.length = m.vertices.length) ∧
  (m.colors1 = [] ∨ m.colors1.length = m.vertices.length)

/-- Shape of the meshes built by the ASCII STL parser. -/
def stlMeshInv (m : Mesh) : Prop :=
  m.normals.length = m.vertices.length ∧ m.texcoords0 = [] ∧
  m.texcoords1 = [] ∧ m.colors0 = [] ∧ m.colors1 = []

/-- An OBJ error kind that is not the `Io` carrier. -/
def notIoKind : ObjErrorKind → Prop
  | .io _ => False
  | _ => True

/-- Every `Io` payload such an OBJ error may carry has kind
`InvalidData`. -/
def ioKindInv (ek : ObjErrorKind) : Prop :=
  ∀ e, ek = ObjErrorKind.io e → e.kind = IoErrorKind.invalidData

-- ===========================================================================
-- Theorems
-- ===========================================================================

theorem bindOkIff {ε α β : Type} (e : Except ε α) (f : α → Except ε β) (b : β) :
    (e >>= f) = .ok b ↔ ∃ a, e = .ok a ∧ f a = .ok b := by
  cases e with
  | ok a => simp [Bind.bind, Except.bind]
  | error err => simp [Bind.bind, Except.bind]

theorem truncFaces_length (k : Nat) : (truncFaces k).length = k := by
  simp [truncFaces]

theorem truncFaces_succ (k : Nat) :
    truncFaces (k + 1) = truncFaces k ++
      [(truncCast 32 (3 * k), truncCast 32 (3 * k + 1), truncCast 32 (3 * k + 2))] := by
  simp [truncFaces, List.range_succ]

theorem truncFaces_bound (k : Nat) (f : Face) (hf : f ∈ truncFaces k) :
    f.1 < 3 * k ∧ f.2.1 < 3 * k ∧ f.2.2 < 3 * k := by
  unfold truncFaces at hf
  simp only [List.mem_map, List.mem_range] at hf
  obtain ⟨i, hi, rfl⟩ := hf
  unfold truncCast
  refine ⟨?_, ?_, ?_⟩ <;> exact lt_of_le_of_lt (Nat.mod_le _ _) (by omega)

theorem truncFaces_eq_of_lt (k : Nat) (hk : 3 * k < 2 ^ 32) :
    truncFaces k = (List.range k).map (fun i => (3 * i, 3 * i + 1, 3 * i + 2)) := by
  unfold truncFaces
  apply List.map_congr_left
  intro i hi
  simp only [List.mem_range] at hi
  unfold truncCast
  have h2 : 3 * i + 2 < 2 ^ 32 := by omega
  rw [Nat.mod_eq_of_lt (by omega), Nat.mod_eq_of_lt (by omega), Nat.mod_eq_of_lt h2]

theorem pushVertex_spec (mesh : Mesh) (vert : Nat × Nat × Nat)
    (vertices colors : List Vec3) (texcoords : List Vec2) (normals : List Vec3)
    (m' : Mesh)
    (h : pushVertex mesh vert vertices colors texcoords normals = .ok m') :
    m'.vertices.length = mesh.vertices.length + 1 ∧ m'.faces = mesh.faces ∧
    m'.texcoords1 = mesh.texcoords1 ∧ m'.colors1 = mesh.colors1 := by
  unfold pushVertex at h
  by_cases c2 : texcoords ≠ [] ∧ vert.2.1 ≠ u32MAX <;>
    by_cases c3 : normals ≠ [] ∧ vert.2.2 ≠ u32MAX <;>
      by_cases c4 : colors ≠ [] <;>
        simp only [Bind.bind, Except.bind, c2, c3, c4, if_true, if_false] at h <;>
          repeat' split at h
  all_goals
    first
    | exact Except.noConfusion h
    | exact h.elim
    | (simp only [Except.ok.injEq] at h
       subst h
       exact ⟨by simp, rfl, rfl, rfl⟩)

theorem pushTriangle_spec (mesh : Mesh) (a b c : Nat × Nat × Nat)
    (vertices colors : List Vec3) (texcoords : List Vec2) (normals : List Vec3)
    (m' : Mesh)
    (h : pushTriangle mesh a b c vertices colors texcoords normals = .ok m') :
    m'.vertices.length = mesh.vertices.length + 3 ∧
    m'.faces = mesh.faces ++
      [(truncCast 32 mesh.vertices.length, truncCast 32 (mesh.vertices.length + 1),
        truncCast 32 (mesh.vertices.length + 2))] ∧
    m'.texcoords1 = mesh.texcoords1 ∧ m'.colors1 = mesh.colors1 := by
  unfold pushTriangle at h
  simp only [bindOkIff] at h
  obtain ⟨m1, h1, m2, h2, m3, h3, h⟩ := h
  obtain ⟨l1, f1, t1, c1⟩ := pushVertex_spec _ _ _ _ _ _ _ h1
  obtain ⟨l2, f2, t2, c2⟩ := pushVertex_spec _ _ _ _ _ _ _ h2
  obtain ⟨l3, f3, t3, c3⟩ := pushVertex_spec _ _ _ _ _ _ _ h3
  simp only [Except.ok.injEq] at h
  subst h
  refine ⟨?_, ?_, ?_, ?_⟩
  · show m3.vertices.length = mesh.vertices.length + 3
    omega
  · show m3.faces ++ _ = _
    rw [f3, f2, f1]
  · show m3.texcoords1 = _
    rw [t3, t2, t1]
  · show m3.colors1 = _
    rw [c3, c2, c1]

theorem pushTriangle_inv (mesh : Mesh) (a b c : Nat × Nat × Nat)
    (vertices colors : List Vec3) (texcoords : List Vec2) (normals : List Vec3)
    (m' : Mesh)
    (h : pushTriangle mesh a b c vertices colors texcoords normals = .ok m')
    (hm : buildInv mesh) : buildInv m' := by
  obtain ⟨l, f, t, c⟩ := pushTriangle_spec _ _ _ _ _ _ _ _ _ h
  obtain ⟨hl, hf, ht, hc⟩ := hm
  have hflen : m'.faces.length = mesh.faces.length + 1 := by
    rw [f]; simp
  refine ⟨?_, ?_, by rw [t, ht], by rw [c, hc]⟩
  · rw [l, hflen, hl]; ring
  · conv_lhs => rw [f, hf, hl]
    rw [hflen, truncFaces_succ]

theorem pushPolygonFan_inv (rest : List (Nat × Nat × Nat)) :
    ∀ (mesh : Mesh) (a b : Nat × Nat × Nat) (vertices colors : List Vec3)
      (texcoords : List Vec2) (normals : List Vec3) (m' : Mesh),
    pushPolygonFan mesh a b rest vertices colors texcoords normals = .ok m' →
    buildInv mesh → buildInv m' := by
  induction rest with
  | nil =>
    intro mesh a b vertices colors texcoords normals m' h hm
    unfold pushPolygonFan at h
    simp only [Except.ok.injEq] at h
    subst h
    exact hm
  | cons c rest ih =>
    intro mesh a b vertices colors texcoords normals m' h hm
    unfold pushPolygonFan at h
    simp only [bindOkIff] at h
    obtain ⟨m1, h1, h2⟩ := h
    exact ih _ _ _ _ _ _ _ _ h2 (pushTriangle_inv _ _ _ _ _ _ _ _ _ h1 hm)

theorem pushFace_inv (mesh : Mesh) (face : ObjFace) (vertices colors : List Vec3)
    (texcoords : List Vec2) (normals : List Vec3) (m' : Mesh)
    (h : pushFace mesh face vertices colors texcoords normals = .ok m')
    (hm : buildInv mesh) : buildInv m' := by
  unfold pushFace at h
  match face with
  | .point _ =>
    simp only [Except.ok.injEq] at h
    subst h
    exact hm
  | .line _ _ =>
    simp only [Except.ok.injEq] at h
    subst h
    exact hm
  | .triangle a b c => exact pushTriangle_inv _ _ _ _ _ _ _ _ _ h hm
  | .polygon vs =>
    match vs with
    | [] =>
      simp only [Except.ok.injEq] at h
      subst h
      exact hm
    | [a] =>
      simp only [Except.ok.injEq] at h
      subst h
      exact hm
    | a :: b :: rest => exact pushPolygonFan_inv _ _ _ _ _ _ _ _ _ h hm

theorem pushFacesLoop_inv (faces : List ObjFace) :
    ∀ (mesh : Mesh) (vertices colors : List Vec3) (texcoords : List Vec2)
      (normals : List Vec3) (m' : Mesh),
    pushFacesLoop mesh faces vertices colors texcoords normals = .ok m' →
    buildInv mesh → buildInv m' := by
  induction faces with
  | nil =>
    intro mesh vertices colors texcoords normals m' h hm
    unfold pushFacesLoop at h
    simp only [Except.ok.injEq] at h
    subst h
    exact hm
  | cons f rest ih =>
    intro mesh vertices colors texcoords normals m' h hm
    unfold pushFacesLoop at h
    simp only [bindOkIff] at h
    obtain ⟨m1, h1, h2⟩ := h
    exact ih _ _ _ _ _ _ h2 (pushFace_inv _ _ _ _ _ _ _ h1 hm)

theorem pushMesh_spec (meshes : List Mesh) (faces : List ObjFace)
    (vertices : List Vec3) (texcoords : List Vec2) (normals : List Vec3)
    (colors : List Vec3) (currentGroup : List Nat) (materialIndex : Option Nat)
    (ms : List Mesh)
    (h : pushMesh meshes faces vertices texcoords normals colors currentGroup
      materialIndex = .ok ms) :
    ms = meshes ∨ ∃ m, ms = meshes ++ [m] ∧ objMeshOk m := by
  unfold pushMesh at h
  split at h
  · simp only [Except.ok.injEq] at h
    exact .inl h.symm
  · simp only [bindOkIff] at h
    obtain ⟨m0, hloop, h⟩ := h
    have hinv : buildInv m0 :=
      pushFacesLoop_inv _ _ _ _ _ _ _ hloop (by constructor <;> simp [truncFaces])
    by_cases c1 : m0.colors0 ≠ [] ∧ m0.vertices.length ≠ m0.colors0.length
    · rw [if_pos c1] at h
      exact Except.noConfusion h
    · rw [if_neg c1] at h
      by_cases c2 : m0.texcoords0 ≠ [] ∧ m0.vertices.length ≠ m0.texcoords0.length
      · rw [if_pos c2] at h
        exact Except.noConfusion h
      · rw [if_neg c2] at h
        by_cases c3 : m0.normals ≠ [] ∧ m0.vertices.length ≠ m0.normals.length
        · rw [if_pos c3] at h
          exact Except.noConfusion h
        · rw [if_neg c3] at h
          simp only [Except.ok.injEq] at h
          push_neg at c1 c2 c3
          refine .inr ⟨m0, h.symm, hinv, ?_, ?_, ?_⟩
          · rcases eq_or_ne m0.normals [] with hn | hn
            · exact .inl hn
            · exact .inr (c3 hn).symm
          · rcases eq_or_ne m0.texcoords0 [] with hn | hn
            · exact .inl hn
            · exact .inr (c2 hn).symm
          · rcases eq_or_ne m0.colors0 [] with hn | hn
            · exact .inl hn
            · exact .inr (c1 hn).symm

theorem objGroupSwitch_meshes_cases (st : ObjState) (nm sAfter : List Nat)
    (step : ObjStep) (h : objGroupSwitch st nm sAfter = .ok step) :
    (ObjStep.state step).meshes = st.meshes ∨
    ∃ idx, pushMesh st.meshes st.faces st.vertices st.texcoords st.normals
        st.colors st.currentGroup idx = .ok (ObjStep.state step).meshes := by
  unfold objGroupSwitch at h
  split at h
  · simp only [Except.ok.injEq] at h
    subst h
    exact .inl rfl
  · simp only [bindOkIff, Except.ok.injEq] at h
    obtain ⟨ms, hpm, h⟩ := h
    subst h
    exact .inr ⟨_, hpm⟩

theorem readObjStep_meshes_cases (reader : MtlCallback) (objDir : Option (List Nat))
    (st : ObjState) (c : Nat) (sNext : List Nat) (step : ObjStep)
    (h : readObjStep reader objDir st c sNext = .ok step) :
    (ObjStep.state step).meshes = st.meshes ∨
    ∃ idx, pushMesh st.meshes st.faces st.vertices st.texcoords st.normals
        st.colors st.currentGroup idx = .ok (ObjStep.state step).meshes := by
  unfold readObjStep at h
  repeat' split at h
  all_goals
    first
    | exact Except.noConfusion h
    | exact objGroupSwitch_meshes_cases st _ _ _ h
    | (simp only [Except.ok.injEq] at h
       subst h
       exact .inl rfl)
    | (simp only [bindOkIff, Except.ok.injEq] at h
       obtain ⟨⟨a1, a2⟩, ha, h⟩ := h
       subst h
       exact .inl rfl)
    | (simp only [bindOkIff, Except.ok.injEq] at h
       obtain ⟨⟨a1, a2, a3⟩, ha, h⟩ := h
       subst h
       exact .inl rfl)
    | (simp only [bindOkIff, Except.ok.injEq] at h
       obtain ⟨ms, hpm, h⟩ := h
       subst h
       exact .inr ⟨_, hpm⟩)

theorem readObjLoop_meshesOk (reader : MtlCallback) (objDir : Option (List Nat))
    (fuel : Nat) :
    ∀ (st : ObjState) (s : List Nat) (st' : ObjState),
    readObjLoop reader objDir fuel st s = .ok st' →
    (∀ m ∈ st.meshes, objMeshOk m) → ∀ m ∈ st'.meshes, objMeshOk m := by
  induction fuel with
  | zero =>
    intro st s st' h hm
    unfold readObjLoop at h
    split at h
    · simp only [Except.ok.injEq] at h
      subst h
      exact hm
    · exact Except.noConfusion h
  | succ fuel ih =>
    intro st s st' h hm
    match s with
    | [] =>
      simp only [readObjLoop, Except.ok.injEq] at h
      subst h
      exact hm
    | c :: sNext =>
      simp only [readObjLoop, bindOkIff] at h
      obtain ⟨step, hstep, h⟩ := h
      have hm2 : ∀ m ∈ (ObjStep.state step).meshes, objMeshOk m := by
        rcases readObjStep_meshes_cases _ _ _ _ _ _ hstep with he | ⟨idx, hpm⟩
        · rw [he]; exact hm
        · rcases pushMesh_spec _ _ _ _ _ _ _ _ _ hpm with he | ⟨m0, he, hok⟩
          · rw [he]; exact hm
          · rw [he]
            intro m hmem
            rcases List.mem_append.mp hmem with h1 | h1
            · exact hm m h1
            · rw [List.mem_singleton.mp h1]
              exact hok
      cases step with
      | continueAt st2 s2 => exact ih st2 s2 st' h hm2
      | fallthrough st2 s2 => exact ih st2 _ st' h hm2

theorem readObj_meshesOk (reader : MtlCallback) (objDir : Option (List Nat))
    (s : List Nat) (meshes : List Mesh) (materials : List Material)
    (h : readObj reader objDir s = .ok (meshes, materials)) :
    ∀ m ∈ meshes, objMeshOk m := by
  unfold readObj at h
  simp only [bindOkIff] at h
  obtain ⟨st, hloop, ms, hpm, h⟩ := h
  simp only [Except.ok.injEq, Prod.mk.injEq] at h
  obtain ⟨h1, h2⟩ := h
  subst h1
  have hst : ∀ m ∈ st.meshes, objMeshOk m :=
    readObjLoop_meshesOk reader objDir _ _ _ _ hloop (by intro m hm; cases hm)
  rcases pushMesh_spec _ _ _ _ _ _ _ _ _ hpm with he | ⟨m0, he, hok⟩
  · rw [he]; exact hst
  · rw [he]
    intro m hmem
    rcases List.mem_append.mp hmem with h1 | h1
    · exact hst m h1
    · rw [List.mem_singleton.mp h1]
      exact hok

/-- C5: for every mesh of a successful OBJ parse (`objFromSlice`), the
number of vertices is exactly three times the number of faces and every
index of every face is strictly below the vertex count; whenever the
vertex count fits in `u32` the faces are moreover exactly the consecutive
index triples `(3k, 3k+1, 3k+2)`. -/
theorem C5_obj_triangulation (readMtl : List Nat → MtlCallback)
    (reader : List Nat → Except IoError (List Nat)) (objDir : Option (List Nat))
    (bytes : List Nat) (scene : Scene)
    (h : objFromSlice readMtl reader objDir bytes = .ok scene) :
    ∀ m ∈ scene.meshes,
      m.vertices.length = 3 * m.faces.length ∧
      (∀ f ∈ m.faces, f.1 < m.vertices.length ∧ f.2.1 < m.vertices.length ∧
        f.2.2 < m.vertices.length) ∧
      (m.vertices.length < 2 ^ 32 → consecutiveTriples m.faces) := by
  unfold objFromSlice at h
  simp only [bindOkIff] at h
  obtain ⟨bs, hdec, h⟩ := h
  split at h
  · rename_i p heq
    simp only [Except.ok.injEq] at h
    subst h
    intro m hm
    obtain ⟨⟨hl, hf, -, -⟩, -, -, -⟩ := readObj_meshesOk _ _ _ _ _ heq m hm
    refine ⟨hl, ?_, ?_⟩
    · intro f hfm
      rw [hf] at hfm
      have hb := truncFaces_bound _ _ hfm
      rw [hl]
      exact hb
    · intro hsmall
      rw [hl] at hsmall
      unfold consecutiveTriples
      rw [hf, truncFaces_length, truncFaces_eq_of_lt _ hsmall]
  · exact Except.noConfusion h

theorem C5_obj_triangulation_witness :
    ∃ scene,
      objFromSlice (fun _ _ ms mm => .ok (ms, mm))
        (fun _ => .error (invalidData (.inr "no file"))) none objInputC5 = .ok scene ∧
      ∀ m ∈ scene.meshes,
        m.vertices.length = 3 * m.faces.length ∧
        (∀ f ∈ m.faces, f.1 < m.vertices.length ∧ f.2.1 < m.vertices.length ∧
          f.2.2 < m.vertices.length) ∧
        (m.vertices.length < 2 ^ 32 → consecutiveTriples m.faces) :=
  ⟨_, rfl,
    C5_obj_triangulation (fun _ _ ms mm => .ok (ms, mm))
      (fun _ => .error (invalidData (.inr "no file"))) none objInputC5 _ rfl⟩

/-- C7 (amended): an `<accessor>` violating `count × stride ≤ |array|`, or
one with stride below the positions minimum of 3, does not produce a
returned error: `Primitive::positions` hits an `assert!` and the COLLADA
instance phase terminates by panic (modelled as the distinguished `RPanic`
outcome). -/
theorem C7_accessor_violation_is_panic (doc : CDoc) (geometry : CGeometry)
    (prim : CPrimitive) (input : CPrimitiveInputs) (acc : CAccessor)
    (arr : CArrayData) (data : List ℚ)
    (hin : prim.input = some input)
    (hid : geometry.mesh.vertices.id = input.vertex.source)
    (hacc : assocGet doc.accessors geometry.mesh.vertices.input.position.source =
      some acc)
    (harr : assocGet doc.arrayData acc.source = some arr)
    (hfloat : arr.asFloat = some data)
    (hviol : acc.stride < 3 ∨ data.length < acc.count * acc.stride) :
    ∃ msg, primPositions doc geometry prim = .error (.panic msg) := by
  unfold primPositions
  simp only [hin]
  rw [if_pos hid]
  unfold docIndexAccessor
  rw [hacc]
  simp only [Bind.bind, Except.bind]
  unfold accessorRecords docIndexArrayData
  rw [harr]
  simp only [Bind.bind, Except.bind, hfloat]
  by_cases hs : ¬ acc.stride ≥ 3
  · rw [if_pos hs]
    exact ⟨_, rfl⟩
  · rw [if_neg hs]
    rw [if_pos (show ¬ acc.count * acc.stride ≤ data.length by omega)]
    exact ⟨_, rfl⟩

/-- C7 witness: the amended theorem applied to the concrete `docC7`
(`count=2, stride=3` over a 3-element array). -/
theorem C7_accessor_violation_is_panic_witness :
    ∃ msg, primPositions docC7 geoC7 primC7 = .error (.panic msg) :=
  C7_accessor_violation_is_panic docC7 geoC7 primC7
    { vertex := { offset := 0, source := "verts" } } ⟨2, 3, "arr"⟩
    (.float [1, 1, 1]) [1, 1, 1] rfl rfl rfl rfl rfl (by decide)

theorem perFaceColorSpec_cons (d : Color4) (rev : Bool) (t : StlTriangle)
    (rest : List StlTriangle) :
    perFaceColorSpec d rev (t :: rest) =
      (let c := if t.color &&& 32768 ≠ 0 then decodeFaceColor rev t.color else d
       [c, c, c]) ++ perFaceColorSpec d rev rest := by
  simp [perFaceColorSpec]

theorem perFaceColorSpec_length (d : Color4) (rev : Bool) (ts : List StlTriangle) :
    (perFaceColorSpec d rev ts).length = 3 * ts.length := by
  induction ts with
  | nil => simp [perFaceColorSpec]
  | cons t rest ih =>
    rw [perFaceColorSpec_cons]
    simp only [List.length_append, ih, List.length_cons, List.length_nil]
    omega

theorem binColorsFaces_nocolor (d : Color4) (rev : Bool) (numV : Nat)
    (ts : List StlTriangle) :
    ∀ vlen, anyColored ts = false →
    (binColorsFaces d 32768 rev numV ts vlen []).2 = [] := by
  induction ts with
  | nil => intro vlen _; rfl
  | cons t rest ih =>
    intro vlen hac
    simp only [anyColored, List.any_cons, Bool.or_eq_false_iff] at hac
    obtain ⟨h1, h2⟩ := hac
    simp only [binColorsFaces]
    rw [if_neg (by simpa using h1)]
    rcases hrec : binColorsFaces d 32768 rev numV rest (vlen + 3) [] with ⟨fs, cs⟩
    have := ih (vlen + 3) (by simpa [anyColored] using h2)
    rw [hrec] at this
    simp only [hrec]
    exact this

theorem binColorsFaces_filled (d : Color4) (rev : Bool) (numV : Nat)
    (ts : List StlTriangle) :
    ∀ (pre : List Color4), pre.length + 3 * ts.length ≤ numV →
    (binColorsFaces d 32768 rev numV ts pre.length
        (pre ++ List.replicate (numV - pre.length) d)).2 =
      pre ++ perFaceColorSpec d rev ts ++
        List.replicate (numV - pre.length - 3 * ts.length) d := by
  induction ts with
  | nil =>
    intro pre hle
    simp [binColorsFaces, perFaceColorSpec]
  | cons t rest ih =>
    intro pre hle
    simp only [List.length_cons] at hle
    have h3 : pre.length + 3 ≤ numV := by omega
    simp only [binColorsFaces]
    by_cases hc : t.color &&& 32768 ≠ 0
    · rw [if_pos hc]
      have hne : pre ++ List.replicate (numV - pre.length) d ≠ [] := by
        intro hemp
        have hlen := congrArg List.length hemp
        simp only [List.length_append, List.length_replicate, List.length_nil] at hlen
        omega
      rw [if_neg hne]
      have hwr : writeRange (pre ++ List.replicate (numV - pre.length) d) pre.length
          [decodeFaceColor rev t.color, decodeFaceColor rev t.color,
            decodeFaceColor rev t.color] =
          (pre ++ [decodeFaceColor rev t.color, decodeFaceColor rev t.color,
            decodeFaceColor rev t.color]) ++
            List.replicate (numV - (pre.length + 3)) d := by
        unfold writeRange
        rw [List.take_left, List.drop_append, List.drop_replicate]
        congr 2
      rw [hwr]
      have hle' : (pre ++ [decodeFaceColor rev t.color, decodeFaceColor rev t.color,
          decodeFaceColor rev t.color]).length + 3 * rest.length ≤ numV := by
        simp only [List.length_append, List.length_cons, List.length_nil]
        omega
      have hrest := ih (pre ++ [decodeFaceColor rev t.color, decodeFaceColor rev t.color,
        decodeFaceColor rev t.color]) hle'
      simp only [List.length_append, List.length_cons, List.length_nil] at hrest
      rcases hrec : binColorsFaces d 32768 rev numV rest (pre.length + 3)
          ((pre ++ [decodeFaceColor rev t.color, decodeFaceColor rev t.color,
            decodeFaceColor rev t.color]) ++
            List.replicate (numV - (pre.length + 3)) d) with ⟨fs, cs⟩
      rw [hrec] at hrest
      simp only [hrec]
      refine hrest.trans ?_
      rw [perFaceColorSpec_cons]
      simp only [if_pos hc]
      have harith : numV - (pre.length + 3) - 3 * rest.length =
          numV - pre.length - 3 * (rest.length + 1) := by omega
      rw [harith]
      simp [List.append_assoc, List.length_cons]
    · rw [if_neg hc]
      have hsplit : pre ++ List.replicate (numV - pre.length) d =
          (pre ++ [d, d, d]) ++ List.replicate (numV - (pre.length + 3)) d := by
        rw [List.append_assoc]
        congr 1
        have h : numV - pre.length = 3 + (numV - (pre.length + 3)) := by omega
        rw [h, List.replicate_add]
        rfl
      rw [hsplit]
      have hle' : (pre ++ [d, d, d]).length + 3 * rest.length ≤ numV := by
        simp only [List.length_append, List.length_cons, List.length_nil]
        omega
      have hrest := ih (pre ++ [d, d, d]) hle'
      simp only [List.length_append, List.length_cons, List.length_nil] at hrest
      rcases hrec : binColorsFaces d 32768 rev numV rest (pre.length + 3)
          ((pre ++ [d, d, d]) ++ List.replicate (numV - (pre.length + 3)) d) with ⟨fs, cs⟩
      rw [hrec] at hrest
      simp only [hrec]
      refine hrest.trans ?_
      rw [perFaceColorSpec_cons]
      simp only [if_neg hc]
      have harith : numV - (pre.length + 3) - 3 * rest.length =
          numV - pre.length - 3 * (rest.length + 1) := by omega
      rw [harith]
      simp [List.append_assoc, List.length_cons]
theorem binColorsFaces_empty (d : Color4) (rev : Bool) (numV : Nat)
    (ts : List StlTriangle) :
    ∀ vlen, vlen + 3 * ts.length ≤ numV →
    (binColorsFaces d 32768 rev numV ts vlen []).2 =
      if anyColored ts then
        List.replicate vlen d ++ perFaceColorSpec d rev ts ++
          List.replicate (numV - vlen - 3 * ts.length) d
      else [] := by
  induction ts with
  | nil =>
    intro vlen hle
    simp [binColorsFaces, anyColored]
  | cons t rest ih =>
    intro vlen hle
    simp only [List.length_cons] at hle
    have h3 : vlen + 3 ≤ numV := by omega
    simp only [binColorsFaces]
    by_cases hc : t.color &&& 32768 ≠ 0
    · rw [if_pos hc]
      simp only [reduceIte]
      have hall : anyColored (t :: rest) = true := by
        simp [anyColored, List.any_cons, hc]
      rw [hall]
      simp only [reduceIte]
      have hwr : writeRange (List.replicate numV d) vlen
          [decodeFaceColor rev t.color, decodeFaceColor rev t.color,
            decodeFaceColor rev t.color] =
          (List.replicate vlen d ++ [decodeFaceColor rev t.color,
            decodeFaceColor rev t.color, decodeFaceColor rev t.color]) ++
            List.replicate (numV - (vlen + 3)) d := by
        unfold writeRange
        rw [List.take_replicate, List.drop_replicate,
          Nat.min_eq_left (by omega : vlen ≤ numV)]
        congr 2
      rw [hwr]
      have hle' : (List.replicate vlen d ++ [decodeFaceColor rev t.color,
          decodeFaceColor rev t.color, decodeFaceColor rev t.color]).length +
          3 * rest.length ≤ numV := by
        simp only [List.length_append, List.length_replicate, List.length_cons,
          List.length_nil]
        omega
      have hrest := binColorsFaces_filled d rev numV rest
        (List.replicate vlen d ++ [decodeFaceColor rev t.color,
          decodeFaceColor rev t.color, decodeFaceColor rev t.color]) hle'
      simp only [List.length_append, List.length_replicate, List.length_cons,
        List.length_nil] at hrest
      rcases hrec : binColorsFaces d 32768 rev numV rest (vlen + 3)
          ((List.replicate vlen d ++ [decodeFaceColor rev t.color,
            decodeFaceColor rev t.color, decodeFaceColor rev t.color]) ++
            List.replicate (numV - (vlen + 3)) d) with ⟨fs, cs⟩
      rw [hrec] at hrest
      simp only [hrec]
      refine hrest.trans ?_
      rw [perFaceColorSpec_cons]
      simp only [if_pos hc]
      have harith : numV - (vlen + 3) - 3 * rest.length =
          numV - vlen - 3 * (rest.length + 1) := by omega
      rw [harith]
      simp [List.append_assoc, List.length_cons]
    · rw [if_neg hc]
      have hhead : anyColored (t :: rest) = anyColored rest := by
        simp only [anyColored, List.any_cons]
        rw [show decide (t.color &&& 32768 ≠ 0) = false by simpa using hc]
        simp
      rcases hrec : binColorsFaces d 32768 rev numV rest (vlen + 3) [] with ⟨fs, cs⟩
      have hrest := ih (vlen + 3) (by omega)
      rw [hrec] at hrest
      simp only [hrec]
      refine hrest.trans ?_
      rw [hhead]
      by_cases har : anyColored rest = true
      · rw [if_pos har, if_pos har]
        rw [perFaceColorSpec_cons]
        simp only [if_neg hc]
        have hsplit : List.replicate (vlen + 3) d =
            List.replicate vlen d ++ [d, d, d] := by
          rw [List.replicate_add]
          rfl
        rw [hsplit]
        have harith : numV - (vlen + 3) - 3 * rest.length =
            numV - vlen - 3 * (rest.length + 1) := by omega
        rw [harith]
        simp [List.append_assoc, List.length_cons]
      · rw [if_neg har, if_neg har]

/-- C6 (amended): the per-vertex color array of a parsed binary STL with
`parse_color = true` is filled lazily — when at least one triangle's
attribute word has bit 15 set, every vertex receives the claimed color
(the decoded 5-bit face color on bit-15 faces, the header default
elsewhere); when no triangle is color-flagged, `colors[0]` stays entirely
empty instead of holding the header default. -/
theorem C6_color_fill_lazy (header : BinaryHeader) (h : header.parseColor = true) :
    (readBinaryTriangles header).colors0 =
      if anyColored (headerTriangles header) then
        perFaceColorSpec header.defaultColor header.reverseColor
          (headerTriangles header)
      else [] := by
  obtain ⟨fs, cs, hp⟩ : ∃ fs cs,
      binColorsFaces header.defaultColor 32768 header.reverseColor
        (((chunks50 (header.triangleBytes.length + 1)
          header.triangleBytes).map readBinaryTriangle).length * 3)
        ((chunks50 (header.triangleBytes.length + 1)
          header.triangleBytes).map readBinaryTriangle) 0 [] = (fs, cs) :=
    ⟨_, _, rfl⟩
  have hmain := binColorsFaces_empty header.defaultColor header.reverseColor
    (((chunks50 (header.triangleBytes.length + 1)
      header.triangleBytes).map readBinaryTriangle).length * 3)
    ((chunks50 (header.triangleBytes.length + 1)
      header.triangleBytes).map readBinaryTriangle) 0 (by omega)
  rw [hp] at hmain
  unfold readBinaryTriangles
  rw [h]
  simp only [if_true]
  rw [hp]
  simp only [headerTriangles]
  refine Eq.trans hmain ?_
  split
  · simp
    omega
  · rfl

/-- C6 witness: the amended theorem applied to a concrete header with one
uncolored and one bit-15-colored triangle. -/
theorem C6_color_fill_lazy_witness :
    headerC6w.parseColor = true ∧
    ((readBinaryTriangles headerC6w).colors0 =
      if anyColored (headerTriangles headerC6w) then
        perFaceColorSpec headerC6w.defaultColor headerC6w.reverseColor
          (headerTriangles headerC6w)
      else []) :=
  ⟨rfl, C6_color_fill_lazy headerC6w rfl⟩


theorem objMeshOk_chanExact (m : Mesh) (h : objMeshOk m) : chanExact m := by
  obtain ⟨⟨-, -, ht1, hc1⟩, hn, ht0, hc0⟩ := h
  exact ⟨hn, ht0, .inl ht1, hc0, .inl hc1⟩

theorem stlMeshInv_chanExact (m : Mesh) (h : stlMeshInv m) : chanExact m :=
  ⟨.inr h.1, .inl h.2.1, .inl h.2.2.1, .inl h.2.2.2.1, .inl h.2.2.2.2⟩

theorem stlPushTriangle_inv (m : Mesh) (t : StlTriangle) (h : stlMeshInv m) :
    stlMeshInv (stlPushTriangle m t) := by
  obtain ⟨hn, ht0, ht1, hc0, hc1⟩ := h
  refine ⟨?_, ht0, ht1, hc0, hc1⟩
  simp only [stlPushTriangle, List.length_append, List.length_cons,
    List.length_nil]
  omega

theorem stlFacetLoop_inv (fuel : Nat) :
    ∀ (mesh : Mesh) (s : List Nat) (m' : Mesh) (s' : List Nat),
    stlFacetLoop fuel mesh s = .ok (m', s') → stlMeshInv mesh → stlMeshInv m' := by
  induction fuel with
  | zero =>
    intro mesh s m' s' h _
    exact Except.noConfusion h
  | succ fuel ih =>
    intro mesh s m' s' h hm
    simp only [stlFacetLoop, bindOkIff] at h
    obtain ⟨step, hstep, h⟩ := h
    match step with
    | none =>
      simp only [Except.ok.injEq, Prod.mk.injEq] at h
      obtain ⟨h1, -⟩ := h
      subst h1
      exact hm
    | some (t, s2) =>
      exact ih _ _ _ _ h (stlPushTriangle_inv _ _ hm)

theorem stlReadSolidName_some_inv (s : List Nat) (n : Nat) (mesh : Mesh)
    (s' : List Nat) (h : stlReadSolidName s n = .ok (some (mesh, s'))) :
    stlMeshInv mesh := by
  unfold stlReadSolidName at h
  by_cases ha : (!isAsciiBytes (List.take n s)) = true
  · rw [if_pos ha] at h
    exact Except.noConfusion h
  · rw [if_neg ha] at h
    simp only [bindOkIff] at h
    obtain ⟨⟨m1, s1⟩, hloop, h⟩ := h
    repeat' split at h
    all_goals
      first
      | exact Except.noConfusion h
      | (simp only [Except.ok.injEq, Option.some.injEq, Prod.mk.injEq] at h
         obtain ⟨h1, -⟩ := h
         subst h1
         exact stlFacetLoop_inv _ _ _ _ _ hloop ⟨rfl, rfl, rfl, rfl, rfl⟩)

theorem stlReadSolid_some_inv (b : Bool) (s0 : List Nat) (mesh : Mesh)
    (s' : List Nat) (h : stlReadSolid b s0 = .ok (some (mesh, s'))) :
    stlMeshInv mesh := by
  unfold stlReadSolid at h
  repeat' split at h
  all_goals
    first
    | exact Except.noConfusion h
    | exact stlReadSolidName_some_inv _ _ _ _ h
    | (injection h with h2
       exact Option.noConfusion h2)

theorem stlSolidLoop_inv (fuel : Nat) :
    ∀ (meshes : List Mesh) (s : List Nat) (result : List Mesh),
    stlSolidLoop fuel meshes s = .ok result →
    (∀ m ∈ meshes, stlMeshInv m) → ∀ m ∈ result, stlMeshInv m := by
  induction fuel with
  | zero =>
    intro meshes s result h _
    exact Except.noConfusion h
  | succ fuel ih =>
    intro meshes s result h hms
    simp only [stlSolidLoop] at h
    split at h
    · exact Except.noConfusion h
    · simp only [Except.ok.injEq] at h
      subst h
      exact hms
    · rename_i mesh s2 heq
      refine ih _ _ _ h ?_
      intro m hm
      rcases List.mem_append.mp hm with h1 | h1
      · exact hms m h1
      · rw [List.mem_singleton.mp h1]
        exact stlReadSolid_some_inv _ _ _ _ heq

theorem readAsciiStl_inv (s : List Nat) (meshes : List Mesh)
    (h : readAsciiStl s = .ok meshes) : ∀ m ∈ meshes, stlMeshInv m :=
  stlSolidLoop_inv _ _ _ _ h (by intro m hm; cases hm)

theorem stlFlatMapVertices_length (ts : List StlTriangle) :
    (ts.flatMap (fun t => [t.vertices.1, t.vertices.2.1, t.vertices.2.2])).length =
      3 * ts.length := by
  induction ts with
  | nil => rfl
  | cons t rest ih =>
    simp only [List.flatMap_cons, List.length_append, ih, List.length_cons,
      List.length_nil]
    omega

theorem stlFlatMapNormals_eq_vertices (ts : List StlTriangle) :
    (ts.flatMap (fun t => [t.normal, t.normal, t.normal])).length =
      (ts.flatMap (fun t => [t.vertices.1, t.vertices.2.1, t.vertices.2.2])).length := by
  induction ts with
  | nil => rfl
  | cons t rest ih =>
    simp only [List.flatMap_cons, List.length_append, ih, List.length_cons,
      List.length_nil]

theorem binColorsFaces_mask0 (d : Color4) (rev : Bool) (numV : Nat)
    (ts : List StlTriangle) :
    ∀ vlen, (binColorsFaces d 0 rev numV ts vlen []).2 = [] := by
  induction ts with
  | nil => intro vlen; rfl
  | cons t rest ih =>
    intro vlen
    simp only [binColorsFaces]
    rw [if_neg (by simp)]
    rcases hrec : binColorsFaces d 0 rev numV rest (vlen + 3) [] with ⟨fs, cs⟩
    have := ih (vlen + 3)
    rw [hrec] at this
    simp only [hrec]
    exact this

theorem readBinaryTriangles_chanExact (header : BinaryHeader) :
    chanExact (readBinaryTriangles header) := by
  unfold chanExact readBinaryTriangles
  cases hpc : header.parseColor with
  | false =>
    simp only [hpc, Bool.false_eq_true, if_false]
    rcases hp : binColorsFaces header.defaultColor 0 header.reverseColor
        (((chunks50 (header.triangleBytes.length + 1)
          header.triangleBytes).map readBinaryTriangle).length * 3)
        ((chunks50 (header.triangleBytes.length + 1)
          header.triangleBytes).map readBinaryTriangle) 0 [] with ⟨fs, cs⟩
    have hcs := binColorsFaces_mask0 header.defaultColor header.reverseColor
      (((chunks50 (header.triangleBytes.length + 1)
        header.triangleBytes).map readBinaryTriangle).length * 3)
      ((chunks50 (header.triangleBytes.length + 1)
        header.triangleBytes).map readBinaryTriangle) 0
    rw [hp] at hcs
    simp only [hp]
    refine ⟨.inr (stlFlatMapNormals_eq_vertices _), by simp, by simp, .inl hcs, by simp⟩
  | true =>
    simp only [hpc, if_true]
    rcases hp : binColorsFaces header.defaultColor 32768 header.reverseColor
        (((chunks50 (header.triangleBytes.length + 1)
          header.triangleBytes).map readBinaryTriangle).length * 3)
        ((chunks50 (header.triangleBytes.length + 1)
          header.triangleBytes).map readBinaryTriangle) 0 [] with ⟨fs, cs⟩
    have hcs := binColorsFaces_empty header.defaultColor header.reverseColor
      (((chunks50 (header.triangleBytes.length + 1)
        header.triangleBytes).map readBinaryTriangle).length * 3)
      ((chunks50 (header.triangleBytes.length + 1)
        header.triangleBytes).map readBinaryTriangle) 0 (by omega)
    rw [hp] at hcs
    simp only [hp]
    refine ⟨.inr (stlFlatMapNormals_eq_vertices _), by simp, by simp, ?_, by simp⟩
    · by_cases hac : anyColored ((chunks50 (header.triangleBytes.length + 1)
          header.triangleBytes).map readBinaryTriangle) = true
      · right
        rw [show (cs : List Color4) = (fs, cs).2 from rfl, hcs, if_pos hac,
          stlFlatMapVertices_length]
        simp only [List.length_append, List.length_replicate,
          perFaceColorSpec_length]
        omega
      · left
        rw [show (cs : List Color4) = (fs, cs).2 from rfl, hcs, if_neg hac]

theorem mergeChannels (meshes : List Mesh) (h2 : 2 ≤ meshes.length)
    (hn : ∀ m ∈ meshes, m.normals.length ≤ m.vertices.length) :
    (Mesh.merge meshes).normals.length ≤ (Mesh.merge meshes).vertices.length ∧
    (Mesh.merge meshes).texcoords0 = [] ∧
    (Mesh.merge meshes).texcoords1 = [] ∧
    ((Mesh.merge meshes).colors0 = [] ∨
      (Mesh.merge meshes).colors0.length = (Mesh.merge meshes).vertices.length) ∧
    ((Mesh.merge meshes).colors1 = [] ∨
      (Mesh.merge meshes).colors1.length = (Mesh.merge meshes).vertices.length) := by
  unfold Mesh.merge
  rw [if_neg (by omega)]
  dsimp only
  refine ⟨?_, rfl, rfl, ?_, ?_⟩
  · rw [List.length_flatMap, List.length_flatMap]
    exact List.sum_le_sum hn
  · by_cases hcc : (meshes.map (fun m => m.vertices.length)).sum =
        (meshes.map (fun m => m.colors0.length)).sum
    · rw [if_pos hcc]
      right
      rw [List.length_flatMap, List.length_flatMap]
      exact hcc.symm
    · rw [if_neg hcc]
      exact .inl rfl
  · by_cases hcc : (meshes.map (fun m => m.vertices.length)).sum =
        (meshes.map (fun m => m.colors1.length)).sum
    · rw [if_pos hcc]
      right
      rw [List.length_flatMap, List.length_flatMap]
      exact hcc.symm
    · rw [if_neg hcc]
      exact .inl rfl

theorem buildMeshFace_bound (doc : CDoc) (mesh : Mesh) (prev : Nat)
    (p n : List Vec3) (t : List Vec2) (c : List Vec3)
    (nIdx tIdx cIdx : List Face) (k : Nat) (vertex : Face) (m' : Mesh)
    (h : buildMeshFace doc mesh prev p n t c nIdx tIdx cIdx k vertex = .ok m')
    (hm : colladaChanBound mesh) : colladaChanBound m' := by
  unfold buildMeshFace at h
  by_cases hn : n ≠ [] <;> by_cases ht : t ≠ [] <;> by_cases hc : c ≠ [] <;>
    simp only [Bind.bind, Except.bind, hn, ht, hc, if_true, if_false] at h <;>
      repeat'
        first
        | split at h
        | simp only [Bind.bind, Except.bind] at h
  all_goals
    first
    | exact Except.noConfusion h
    | exact h.elim
    | (simp only [Except.ok.injEq] at h
       subst h
       obtain ⟨h1, h2, h3, h4, h5⟩ := hm
       refine ⟨?_, ?_, ?_, ?_, ?_⟩ <;>
         simp only [List.length_append, List.length_cons, List.length_nil,
           h4, h5] <;>
         omega)

theorem buildMeshFaces_bound (doc : CDoc) (prev : Nat)
    (p n : List Vec3) (t : List Vec2) (c : List Vec3)
    (nIdx tIdx cIdx : List Face) (vs : List Face) :
    ∀ (mesh : Mesh) (k : Nat) (m' : Mesh),
    buildMeshFaces doc mesh prev p n t c nIdx tIdx cIdx k vs = .ok m' →
    colladaChanBound mesh → colladaChanBound m' := by
  induction vs with
  | nil =>
    intro mesh k m' h hm
    simp only [buildMeshFaces, Except.ok.injEq] at h
    subst h
    exact hm
  | cons v rest ih =>
    intro mesh k m' h hm
    simp only [buildMeshFaces, bindOkIff] at h
    obtain ⟨m1, h1, h⟩ := h
    exact ih _ _ _ h (buildMeshFace_bound _ _ _ _ _ _ _ _ _ _ _ _ _ h1 hm)

theorem buildMeshPrimitive_bound (doc : CDoc) (geometry : CGeometry)
    (mesh : Mesh) (prim : CPrimitive) (m' : Mesh)
    (h : buildMeshPrimitive doc geometry mesh prim = .ok m')
    (hm : colladaChanBound mesh) : colladaChanBound m' := by
  unfold buildMeshPrimitive at h
  simp only [bindOkIff] at h
  obtain ⟨p, hp, n, hn, t, ht, c, hc, h⟩ := h
  exact buildMeshFaces_bound _ _ _ _ _ _ _ _ _ _ _ _ _ h hm

theorem buildMesh_go_bound (doc : CDoc) (geometry : CGeometry)
    (prims : List CPrimitive) :
    ∀ (mesh : Mesh) (m' : Mesh),
    buildMesh.go doc geometry mesh prims = .ok m' →
    colladaChanBound mesh → colladaChanBound m' := by
  induction prims with
  | nil =>
    intro mesh m' h hm
    simp only [buildMesh.go, Except.ok.injEq] at h
    subst h
    exact hm
  | cons prim rest ih =>
    intro mesh m' h hm
    simp only [buildMesh.go, bindOkIff] at h
    obtain ⟨m1, h1, h⟩ := h
    exact ih _ _ h (buildMeshPrimitive_bound _ _ _ _ _ h1 hm)

theorem buildMesh_bound (doc : CDoc) (geometry : CGeometry) (m : Mesh)
    (h : buildMesh doc geometry = .ok m) : colladaChanBound m := by
  unfold buildMesh at h
  exact buildMesh_go_bound _ _ _ _ _ h ⟨by simp, by simp, by simp, rfl, rfl⟩

/-- C2 (amended): the empty-or-exact channel-length invariant holds for
every mesh produced by the OBJ and STL `from_slice` parsers, but not for
the other mesh-producing phases.  The COLLADA `build_mesh` primitive loop
only bounds each channel by `|vertices|` (second texcoord/color sets stay
empty): a geometry with one `NORMAL`-carrying and one normal-less
`<triangles>` primitive yields 6 vertices but a non-empty normal list of
length 3.  For a merged mesh (`Mesh::merge` of two or more meshes whose
normals do not exceed their vertices) the texcoords are dropped, the
color channels are again empty or exact, but the merged normals are only
bounded by `|vertices|` — they can be non-empty yet shorter. -/
theorem C2_channel_lengths_amended :
    (∀ readMtl reader objDir bytes scene,
      objFromSlice readMtl reader objDir bytes = .ok scene →
      ∀ m ∈ scene.meshes, chanExact m) ∧
    (∀ bytes parseColor scene,
      stlFromSliceInternal bytes parseColor = .ok scene →
      ∀ m ∈ scene.meshes, chanExact m) ∧
    (∀ doc geometry m, buildMesh doc geometry = .ok m →
      m.normals.length ≤ m.vertices.length ∧
      m.texcoords0.length ≤ m.vertices.length ∧
      m.colors0.length ≤ m.vertices.length ∧
      m.texcoords1 = [] ∧ m.colors1 = []) ∧
    ((buildMesh docC2dae geoC2dae).map
        (fun m => (m.vertices.length, m.normals.length)) = .ok (6, 3) ∧
      (3 : Nat) ≠ 0 ∧ (3 : Nat) ≠ 6) ∧
    (∀ meshes, 2 ≤ meshes.length →
      (∀ m ∈ meshes, m.normals.length ≤ m.vertices.length) →
      (Mesh.merge meshes).normals.length ≤ (Mesh.merge meshes).vertices.length ∧
      (Mesh.merge meshes).texcoords0 = [] ∧
      (Mesh.merge meshes).texcoords1 = [] ∧
      ((Mesh.merge meshes).colors0 = [] ∨
        (Mesh.merge meshes).colors0.length = (Mesh.merge meshes).vertices.length) ∧
      ((Mesh.merge meshes).colors1 = [] ∨
        (Mesh.merge meshes).colors1.length =
          (Mesh.merge meshes).vertices.length)) := by
  refine ⟨?_, ?_, fun doc geometry m h => buildMesh_bound doc geometry m h,
    ⟨rfl, by decide, by decide⟩, mergeChannels⟩
  · intro readMtl reader objDir bytes scene h
    unfold objFromSlice at h
    simp only [bindOkIff] at h
    obtain ⟨bs, hdec, h⟩ := h
    split at h
    · rename_i p heq
      simp only [Except.ok.injEq] at h
      subst h
      intro m hm
      exact objMeshOk_chanExact m (readObj_meshesOk _ _ _ _ _ heq m hm)
    · exact Except.noConfusion h
  · intro bytes parseColor scene h
    unfold stlFromSliceInternal at h
    split at h
    · split at h
      · rename_i meshes hread
        simp only [Except.ok.injEq] at h
        subst h
        intro m hm
        exact stlMeshInv_chanExact _ (readAsciiStl_inv _ _ hread m hm)
      · split at h
        · dsimp only at h
          split at h
          · rename_i header hh
            simp only [Except.ok.injEq] at h
            subst h
            intro m hm
            simp only [List.mem_singleton] at hm
            rw [hm]
            exact readBinaryTriangles_chanExact header
          · exact Except.noConfusion h
        · dsimp only at h
          exact Except.noConfusion h
    · dsimp only at h
      split at h
      · rename_i header hh
        simp only [Except.ok.injEq] at h
        subst h
        intro m hm
        simp only [List.mem_singleton] at hm
        rw [hm]
        exact readBinaryTriangles_chanExact header
      · exact Except.noConfusion h

theorem notIoKind_ioKindInv (ek : ObjErrorKind) (h : notIoKind ek) :
    ioKindInv ek := by
  intro e he
  subst he
  exact (h : False).elim

theorem bindErrIff {ε α β : Type} (e : Except ε α) (f : α → Except ε β) (err : ε) :
    (e >>= f) = .error err ↔
      e = .error err ∨ ∃ a, e = .ok a ∧ f a = .error err := by
  cases e with
  | ok a => simp [Bind.bind, Except.bind]
  | error e2 => simp [Bind.bind, Except.bind]

theorem mapErrIff {ε α β : Type} (x : Except ε α) (f : α → β) (e : ε) :
    x.map f = .error e ↔ x = .error e := by
  cases x <;> simp [Except.map]

theorem readFloat3_notIo (tag : String) (s : List Nat) (ek : ObjErrorKind)
    (h : readFloat3 tag s = .error ek) : notIoKind ek := by
  unfold readFloat3 at h
  repeat'
    first
    | split at h
    | simp only [Bind.bind, Except.bind] at h
  all_goals
    first
    | exact Except.noConfusion h
    | (injection h with h2
       subst h2
       trivial)

theorem readV_notIo (vertices colors : List Vec3) (s : List Nat)
    (ek : ObjErrorKind) (h : readV vertices colors s = .error ek) :
    notIoKind ek := by
  unfold readV at h
  rw [bindErrIff] at h
  rcases h with h | ⟨⟨a1, a2⟩, ha, h⟩
  · exact readFloat3_notIo _ _ _ h
  · repeat'
      first
      | split at h
      | simp only [Bind.bind, Except.bind] at h
    all_goals
      first
      | exact Except.noConfusion h
      | (injection h with h2
         subst h2
         trivial)

theorem readVn_notIo (normals : List Vec3) (s : List Nat) (ek : ObjErrorKind)
    (h : readVn normals s = .error ek) : notIoKind ek := by
  unfold readVn at h
  rw [bindErrIff] at h
  rcases h with h | ⟨⟨a1, a2⟩, ha, h⟩
  · exact readFloat3_notIo _ _ _ h
  · repeat'
      first
      | split at h
      | simp only [Bind.bind, Except.bind] at h
    all_goals
      first
      | exact Except.noConfusion h
      | (injection h with h2
         subst h2
         trivial)

theorem readVt_notIo (texcoords : List Vec2) (s : List Nat) (ek : ObjErrorKind)
    (h : readVt texcoords s = .error ek) : notIoKind ek := by
  unfold readVt at h
  repeat'
    first
    | split at h
    | simp only [Bind.bind, Except.bind] at h
  all_goals
    first
    | exact Except.noConfusion h
    | (injection h with h2
       subst h2
       trivial)

theorem readFaceCorner_notIo (w : List Nat) (nV nT nN sLen fLen : Nat)
    (ek : ObjErrorKind) (h : readFaceCorner w nV nT nN sLen fLen = .error ek) :
    notIoKind ek := by
  unfold readFaceCorner at h
  repeat'
    first
    | split at h
    | simp only [Bind.bind, Except.bind] at h
  all_goals
    first
    | exact Except.noConfusion h
    | (injection h with h2
       subst h2
       trivial)

theorem readFLoop_notIo (nV nT nN sLen : Nat) (fuel : Nat) :
    ∀ (f acc : List _) (ek : ObjErrorKind),
    readFLoop nV nT nN sLen fuel f acc = .error ek → notIoKind ek := by
  induction fuel with
  | zero =>
    intro f acc ek h
    unfold readFLoop at h
    split at h
    · exact Except.noConfusion h
    · injection h with h2
      subst h2
      trivial
  | succ fuel ih =>
    intro f acc ek h
    match f with
    | [] =>
      simp only [readFLoop] at h
      exact Except.noConfusion h
    | c :: fRest =>
      simp only [readFLoop, bindErrIff] at h
      rcases h with h | ⟨a, ha, h⟩
      · repeat'
          first
          | split at h
          | simp only [Bind.bind, Except.bind] at h
        all_goals
          first
          | exact Except.noConfusion h
          | exact readFaceCorner_notIo _ _ _ _ _ _ _ h
      · exact ih _ _ _ h

theorem readF_notIo (faces : List ObjFace) (nV nT nN : Nat) (s : List Nat)
    (ek : ObjErrorKind) (h : readF faces nV nT nN s = .error ek) :
    notIoKind ek := by
  unfold readF at h
  rw [bindErrIff] at h
  rcases h with h | ⟨a, ha, h⟩
  · repeat'
      first
      | split at h
      | simp only [Bind.bind, Except.bind] at h
    all_goals
      first
      | exact Except.noConfusion h
      | exact readFLoop_notIo _ _ _ _ _ _ _ _ h
  · repeat'
      first
      | split at h
      | simp only [Bind.bind, Except.bind] at h
    all_goals
      first
      | exact Except.noConfusion h
      | (injection h with h2
         subst h2
         trivial)

theorem pushVertex_notIo (mesh : Mesh) (vert : Nat × Nat × Nat)
    (vertices colors : List Vec3) (texcoords : List Vec2) (normals : List Vec3)
    (ek : ObjErrorKind)
    (h : pushVertex mesh vert vertices colors texcoords normals = .error ek) :
    notIoKind ek := by
  unfold pushVertex at h
  by_cases c2 : texcoords ≠ [] ∧ vert.2.1 ≠ u32MAX <;>
    by_cases c3 : normals ≠ [] ∧ vert.2.2 ≠ u32MAX <;>
      by_cases c4 : colors ≠ [] <;>
        simp only [Bind.bind, Except.bind, c2, c3, c4, if_true, if_false] at h <;>
          repeat'
    first
    | split at h
    | simp only [Bind.bind, Except.bind] at h
  all_goals
    first
    | exact Except.noConfusion h
    | exact h.elim
    | (injection h with h2
       subst h2
       trivial)

theorem pushTriangle_notIo (mesh : Mesh) (a b c : Nat × Nat × Nat)
    (vertices colors : List Vec3) (texcoords : List Vec2) (normals : List Vec3)
    (ek : ObjErrorKind)
    (h : pushTriangle mesh a b c vertices colors texcoords normals = .error ek) :
    notIoKind ek := by
  unfold pushTriangle at h
  rw [bindErrIff] at h
  rcases h with h | ⟨m1, h1, h⟩
  · exact pushVertex_notIo _ _ _ _ _ _ _ h
  · rw [bindErrIff] at h
    rcases h with h | ⟨m2, h2, h⟩
    · exact pushVertex_notIo _ _ _ _ _ _ _ h
    · rw [bindErrIff] at h
      rcases h with h | ⟨m3, h3, h⟩
      · exact pushVertex_notIo _ _ _ _ _ _ _ h
      · exact Except.noConfusion h

theorem pushPolygonFan_notIo (rest : List (Nat × Nat × Nat)) :
    ∀ (mesh : Mesh) (a b : Nat × Nat × Nat) (vertices colors : List Vec3)
      (texcoords : List Vec2) (normals : List Vec3) (ek : ObjErrorKind),
    pushPolygonFan mesh a b rest vertices colors texcoords normals = .error ek →
    notIoKind ek := by
  induction rest with
  | nil =>
    intro mesh a b vertices colors texcoords normals ek h
    exact Except.noConfusion h
  | cons c rest ih =>
    intro mesh a b vertices colors texcoords normals ek h
    unfold pushPolygonFan at h
    rw [bindErrIff] at h
    rcases h with h | ⟨m1, h1, h⟩
    · exact pushTriangle_notIo _ _ _ _ _ _ _ _ _ h
    · exact ih _ _ _ _ _ _ _ _ h

theorem pushFace_notIo (mesh : Mesh) (face : ObjFace)
    (vertices colors : List Vec3) (texcoords : List Vec2) (normals : List Vec3)
    (ek : ObjErrorKind)
    (h : pushFace mesh face vertices colors texcoords normals = .error ek) :
    notIoKind ek := by
  unfold pushFace at h
  match face with
  | .point _ => exact Except.noConfusion h
  | .line _ _ => exact Except.noConfusion h
  | .triangle a b c => exact pushTriangle_notIo _ _ _ _ _ _ _ _ _ h
  | .polygon vs =>
    match vs with
    | [] => exact Except.noConfusion h
    | [a] => exact Except.noConfusion h
    | a :: b :: rest => exact pushPolygonFan_notIo _ _ _ _ _ _ _ _ _ h

theorem pushFacesLoop_notIo (faces : List ObjFace) :
    ∀ (mesh : Mesh) (vertices colors : List Vec3) (texcoords : List Vec2)
      (normals : List Vec3) (ek : ObjErrorKind),
    pushFacesLoop mesh faces vertices colors texcoords normals = .error ek →
    notIoKind ek := by
  induction faces with
  | nil =>
    intro mesh vertices colors texcoords normals ek h
    exact Except.noConfusion h
  | cons f rest ih =>
    intro mesh vertices colors texcoords normals ek h
    unfold pushFacesLoop at h
    rw [bindErrIff] at h
    rcases h with h | ⟨m1, h1, h⟩
    · exact pushFace_notIo _ _ _ _ _ _ _ h
    · exact ih _ _ _ _ _ _ h

theorem pushMesh_notIo (meshes : List Mesh) (faces : List ObjFace)
    (vertices : List Vec3) (texcoords : List Vec2) (normals : List Vec3)
    (colors : List Vec3) (currentGroup : List Nat)
    (materialIndex : Option Nat) (ek : ObjErrorKind)
    (h : pushMesh meshes faces vertices texcoords normals colors currentGroup
      materialIndex = .error ek) : notIoKind ek := by
  unfold pushMesh at h
  split at h
  · exact Except.noConfusion h
  · rw [bindErrIff] at h
    rcases h with h | ⟨m0, h0, h⟩
    · exact pushFacesLoop_notIo _ _ _ _ _ _ _ h
    · by_cases c1 : m0.colors0 ≠ [] ∧ m0.vertices.length ≠ m0.colors0.length
      · rw [if_pos c1] at h
        injection h with h2
        subst h2
        trivial
      · rw [if_neg c1] at h
        by_cases c2 : m0.texcoords0 ≠ [] ∧
            m0.vertices.length ≠ m0.texcoords0.length
        · rw [if_pos c2] at h
          injection h with h2
          subst h2
          trivial
        · rw [if_neg c2] at h
          by_cases c3 : m0.normals ≠ [] ∧ m0.vertices.length ≠ m0.normals.length
          · rw [if_pos c3] at h
            injection h with h2
            subst h2
            trivial
          · rw [if_neg c3] at h
            exact Except.noConfusion h

theorem objGroupSwitch_notIo (st : ObjState) (nm sAfter : List Nat)
    (ek : ObjErrorKind) (h : objGroupSwitch st nm sAfter = .error ek) :
    notIoKind ek := by
  unfold objGroupSwitch at h
  split at h
  · exact Except.noConfusion h
  · rw [bindErrIff] at h
    rcases h with h | ⟨ms, hms, h⟩
    · exact pushMesh_notIo _ _ _ _ _ _ _ _ _ h
    · exact Except.noConfusion h

theorem readObjStep_errInv (reader : MtlCallback) (objDir : Option (List Nat))
    (st : ObjState) (c : Nat) (sNext : List Nat) (ek : ObjErrorKind)
    (hcb : ∀ p ms mm e, reader p ms mm = .error e →
      e.kind = IoErrorKind.invalidData)
    (h : readObjStep reader objDir st c sNext = .error ek) : ioKindInv ek := by
  unfold readObjStep at h
  repeat'
    first
    | split at h
    | simp only [Bind.bind, Except.bind] at h
  all_goals
    first
    | exact Except.noConfusion h
    | exact notIoKind_ioKindInv _ (objGroupSwitch_notIo _ _ _ _ h)
    | (rename_i err heq
       injection h with h2
       subst h2
       first
       | exact notIoKind_ioKindInv _ (readV_notIo _ _ _ _ heq)
       | exact notIoKind_ioKindInv _ (readVn_notIo _ _ _ heq)
       | exact notIoKind_ioKindInv _ (readVt_notIo _ _ _ heq)
       | exact notIoKind_ioKindInv _ (readF_notIo _ _ _ _ _ _ heq)
       | exact notIoKind_ioKindInv _ (pushMesh_notIo _ _ _ _ _ _ _ _ _ heq))
    | (rename_i e2 heq
       injection h with h2
       subst h2
       intro e he
       injection he with he2
       subst he2
       exact hcb _ _ _ _ heq)

theorem readObjLoop_errInv (reader : MtlCallback) (objDir : Option (List Nat))
    (hcb : ∀ p ms mm e, reader p ms mm = .error e →
      e.kind = IoErrorKind.invalidData) (fuel : Nat) :
    ∀ (st : ObjState) (s : List Nat) (ek : ObjErrorKind),
    readObjLoop reader objDir fuel st s = .error ek → ioKindInv ek := by
  induction fuel with
  | zero =>
    intro st s ek h
    unfold readObjLoop at h
    split at h
    · exact Except.noConfusion h
    · injection h with h2
      subst h2
      exact notIoKind_ioKindInv _ trivial
  | succ fuel ih =>
    intro st s ek h
    match s with
    | [] =>
      simp only [readObjLoop] at h
      exact Except.noConfusion h
    | c :: sNext =>
      simp only [readObjLoop, bindErrIff] at h
      rcases h with h | ⟨step, hstep, h⟩
      · exact readObjStep_errInv _ _ _ _ _ _ hcb h
      · cases step with
        | continueAt st2 s2 => exact ih _ _ _ h
        | fallthrough st2 s2 => exact ih _ _ _ h

theorem readObj_errInv (reader : MtlCallback) (objDir : Option (List Nat))
    (s : List Nat) (ek : ObjErrorKind)
    (hcb : ∀ p ms mm e, reader p ms mm = .error e →
      e.kind = IoErrorKind.invalidData)
    (h : readObj reader objDir s = .error ek) : ioKindInv ek := by
  unfold readObj at h
  rw [bindErrIff] at h
  rcases h with h | ⟨st, hst, h⟩
  · exact readObjLoop_errInv _ _ hcb _ _ _ _ h
  · rw [bindErrIff] at h
    rcases h with h | ⟨ms, hms, h⟩
    · exact notIoKind_ioKindInv _ (pushMesh_notIo _ _ _ _ _ _ _ _ _ h)
    · exact Except.noConfusion h

theorem decodeBytes_errInvalid (bytes : List Nat) (e : IoError)
    (h : decodeBytes bytes = .error e) : e.kind = IoErrorKind.invalidData := by
  unfold decodeBytes fromUtf16 at h
  repeat'
    first
    | split at h
    | simp only [Bind.bind, Except.bind] at h
  all_goals
    first
    | exact Except.noConfusion h
    | (injection h with h2
       subst h2
       rfl)

theorem objFromSlice_errInvalid (readMtl : List Nat → MtlCallback)
    (reader : List Nat → Except IoError (List Nat)) (objDir : Option (List Nat))
    (bytes : List Nat) (e : IoError)
    (hmtl : ∀ b p ms mm err, readMtl b p ms mm = .error err →
      err.kind = IoErrorKind.invalidData)
    (h : objFromSlice readMtl reader objDir bytes = .error e) :
    e.kind = IoErrorKind.invalidData := by
  unfold objFromSlice at h
  rw [bindErrIff] at h
  rcases h with h | ⟨bs, hbs, h⟩
  · exact decodeBytes_errInvalid _ _ h
  · dsimp only at h
    split at h
    · exact Except.noConfusion h
    · rename_i ek heq
      injection h with h2
      subst h2
      have hio : ioKindInv ek := by
        refine readObj_errInv _ objDir bs ek ?_ heq
        intro p ms mm err hc
        simp only [] at hc
        cases hr : reader p with
        | ok b =>
          simp only [hr] at hc
          exact hmtl _ _ _ _ _ hc
        | error e2 =>
          simp only [hr] at hc
          exact Except.noConfusion hc
      cases ek with
      | io ioe => exact hio ioe rfl
      | expectedSpace tag n => rfl
      | expectedNewline tag n => rfl
      | expected tag n => rfl
      | floatErr n => rfl
      | intErr n => rfl
      | invalidW n => rfl
      | invalidFaceIndex n => rfl
      | oob i n => rfl
      | fuel => rfl

theorem stlFromSliceInternal_errInvalid (bytes : List Nat) (parseColor : Bool)
    (e : IoError) (h : stlFromSliceInternal bytes parseColor = .error e) :
    e.kind = IoErrorKind.invalidData := by
  unfold stlFromSliceInternal at h
  split at h
  · split at h
    · exact Except.noConfusion h
    · split at h
      · dsimp only at h
        split at h
        · exact Except.noConfusion h
        · injection h with h2
          subst h2
          rfl
      · dsimp only at h
        injection h with h2
        subst h2
        rfl
  · dsimp only at h
    split at h
    · exact Except.noConfusion h
    · injection h with h2
      subst h2
      rfl

theorem loadFromSliceWithReader_errInv (cfg : LoaderCfg)
    (colladaCore : List Nat → Except IoError Scene)
    (readMtl : List Nat → MtlCallback)
    (reader : List Nat → Except IoError (List Nat))
    (ext : Option String) (objDir : Option (List Nat)) (bytes : List Nat)
    (e : IoError)
    (hcol : ∀ err, colladaCore bytes = .error err →
      err.kind = IoErrorKind.invalidData)
    (hmtl : ∀ b p ms mm err, readMtl b p ms mm = .error err →
      err.kind = IoErrorKind.invalidData)
    (h : loadFromSliceWithReader cfg colladaCore readMtl reader ext objDir bytes
      = .error e) :
    e.kind = IoErrorKind.invalidData ∨
      (e.kind = IoErrorKind.unsupported ∧ detectFileType ext bytes = .unknown) := by
  unfold loadFromSliceWithReader at h
  rcases hdet : detectFileType ext bytes with _ | _ | _ | _ <;> rw [hdet] at h
  · left
    unfold loadStlFromSlice at h
    rw [mapErrIff] at h
    exact stlFromSliceInternal_errInvalid _ _ _ h
  · left
    unfold loadColladaFromSlice at h
    rw [mapErrIff] at h
    exact hcol _ h
  · left
    unfold loadObjFromSliceWithReader at h
    rw [mapErrIff] at h
    exact objFromSlice_errInvalid _ _ _ _ _ hmtl h
  · right
    injection h with h2
    subst h2
    exact ⟨rfl, rfl⟩

/-- C8 (amended): an unknown file type makes the loader return an
`Unsupported`-kind error; a failure of the caller-supplied reader on the
main file is propagated verbatim by the path-based entry points
(`reader(path)?` in `load_with_reader` and its `load_stl`/`load_collada`/
`load_obj_with_reader` analogues), keeping the reader's own kind; every
other loader error has kind `InvalidData` — established for the STL core
unconditionally and for the OBJ and COLLADA paths under the hypothesis
that the (unembedded) MTL parser and COLLADA core themselves only produce
`InvalidData` errors.  Reader-callback failures while resolving an OBJ
`mtllib`, by contrast, are swallowed, not propagated. -/
theorem C8_error_kinds_amended :
    (∀ cfg colladaCore readMtl reader ext objDir bytes,
      detectFileType ext bytes = .unknown →
      errKind (loadFromSliceWithReader cfg colladaCore readMtl reader ext objDir
        bytes) = some .unsupported) ∧
    (∀ cfg colladaCore readMtl reader ext objDir bytes e,
      (∀ err, colladaCore bytes = .error err →
        err.kind = IoErrorKind.invalidData) →
      (∀ b p ms mm err, readMtl b p ms mm = .error err →
        err.kind = IoErrorKind.invalidData) →
      loadFromSliceWithReader cfg colladaCore readMtl reader ext objDir bytes =
        .error e →
      e.kind = IoErrorKind.invalidData ∨
        (e.kind = IoErrorKind.unsupported ∧ detectFileType ext bytes = .unknown)) ∧
    (∀ cfg colladaCore readMtl reader ext objDir path e,
      reader path = .error e →
      loadWithReader cfg colladaCore readMtl reader ext objDir path = .error e) ∧
    (∀ cfg colladaCore readMtl reader ext objDir path e,
      (∀ bytes err, colladaCore bytes = .error err →
        err.kind = IoErrorKind.invalidData) →
      (∀ b p ms mm err, readMtl b p ms mm = .error err →
        err.kind = IoErrorKind.invalidData) →
      loadWithReader cfg colladaCore readMtl reader ext objDir path = .error e →
      e.kind = IoErrorKind.invalidData ∨
        (∃ bytes, reader path = .ok bytes ∧
          e.kind = IoErrorKind.unsupported ∧ detectFileType ext bytes = .unknown) ∨
        reader path = .error e) := by
  refine ⟨?_, ?_, ?_, ?_⟩
  · intro cfg colladaCore readMtl reader ext objDir bytes hdet
    unfold loadFromSliceWithReader
    rw [hdet]
    rfl
  · intro cfg colladaCore readMtl reader ext objDir bytes e hcol hmtl h
    exact loadFromSliceWithReader_errInv _ _ _ _ _ _ _ _ hcol hmtl h
  · intro cfg colladaCore readMtl reader ext objDir path e hre
    unfold loadWithReader
    simp only [Bind.bind, Except.bind, hre]
  · intro cfg colladaCore readMtl reader ext objDir path e hcol hmtl h
    unfold loadWithReader at h
    rw [bindErrIff] at h
    rcases h with h | ⟨bytes, hb, h⟩
    · exact .inr (.inr h)
    · rcases loadFromSliceWithReader_errInv _ _ _ _ _ _ _ _ (hcol bytes) hmtl h with
        h2 | ⟨h2, h3⟩
      · exact .inl h2
      · exact .inr (.inl ⟨bytes, hb, h2, h3⟩)

/-- C3: the integer parser is claimed to reject every input denoting a
value beyond the target type's range.  The code accepts such inputs and
returns the wrapped value: `u8::parse("308")` yields `Some(52)` (the
repo's own test `int.rs` asserts `None`), `i64::parse` of `i64::MAX + 1`
yields `Some(i64::MIN)`, and `u64::parse` of `2^64 + 10^19` yields
`Some(10^19)` — the final `value > MAX + sign` overflow check described by
the spec is missing. -/
theorem C3_int_overflow_check_missing :
    u8Parse (bytesOfAscii "308") = some 52 ∧
    i64Parse (bytesOfAscii "9223372036854775808") = some (-9223372036854775808) ∧
    u64Parse (bytesOfAscii "28446744073709551616") = some 10000000000000000000 :=
  ⟨by decide, by decide, by decide⟩

/-- C4: with `merge_meshes` enabled the merged scene does have exactly one
mesh and one material, but the face-index rebase is wrong: `Mesh::merge`
sets the running offset to the *current source mesh's* last face index + 1
instead of accumulating, so with three source meshes of 2, 1 and 1 faces
the third mesh's face comes out as `(3,4,5)` (offset 3) where the claimed
cumulative-vertex-count offset demands `(9,10,11)` (offset 9). -/
theorem C4_merge_offset_not_cumulative :
    ∀ readMtl reader,
      ((objFromSlice readMtl reader none objInputC4).map (postProcess true)).map
          (fun s =>
            (s.meshes.map (fun m => m.faces),
             s.meshes.map (fun m => m.vertices.length),
             s.materials.length)) =
        .ok ([[(0, 1, 2), (3, 4, 5), (6, 7, 8), (3, 4, 5)]], [12], 1) := by
  intro readMtl reader
  rfl

/-- C10: a `g`/`usemtl` boundary (or end of input) with no accumulated
faces emits no mesh: `push_mesh` is a no-op on an empty face list, and an
OBJ input of three consecutive `g` lines produces a scene with no
meshes. -/
theorem C10_empty_flush_emits_no_mesh :
    (∀ meshes vertices texcoords normals colors currentGroup materialIndex,
      pushMesh meshes [] vertices texcoords normals colors currentGroup
        materialIndex = .ok meshes) ∧
    (∀ readMtl objDir, readObj readMtl objDir objInputC10 = .ok ([], [])) := by
  constructor
  · intro meshes vertices texcoords normals colors currentGroup materialIndex
    rfl
  · intro readMtl objDir
    rfl

/-- C2 counterexample: an OBJ file whose first group has per-corner
normals and whose second group has none, loaded with `merge_meshes`,
yields a single merged mesh with 6 vertices but a non-empty normal
sequence of length 3 — the claimed "empty or exactly `|vertices|`"
invariant fails for the merged mesh. -/
theorem C2_counterexample_merged_normals :
    (∀ readMtl reader,
      ((objFromSlice readMtl reader none objInputC2).map (postProcess true)).map
          (fun s => s.meshes.map (fun m => (m.vertices.length, m.normals.length))) =
        .ok [(6, 3)]) ∧
    (3 : Nat) ≠ 0 ∧ (3 : Nat) ≠ 6 := by
  refine ⟨fun readMtl reader => rfl, by decide, by decide⟩

set_option maxRecDepth 100000 in
/-- C6 counterexample: a binary STL whose header carries
`COLOR=\xC0\xC0\xC0\xFF`, parsed with `parse_color = true`, but whose only
face has attribute bit 15 clear: no vertex receives any color at all —
`colors[0]` stays empty (the default fill only happens lazily at the first
color-flagged face), while the claim promises the header default on every
vertex. -/
theorem C6_counterexample_no_colored_face :
    stlFindColor (stlInputC6.take 80) = some (192, 192, 192, 255) ∧
    (stlFromSliceInternal stlInputC6 true).map
        (fun s => s.meshes.map (fun m => (m.vertices.length, m.colors0))) =
      .ok [(3, [])] :=
  ⟨by decide, rfl⟩

/-- C7 counterexample: a COLLADA document whose accessor declares
`count=2, stride=3` over a 3-element `<float_array>` makes the instance
phase hit the `assert!((acc.count * acc.stride) as usize <= data.len())`
in `Primitive::positions` — the entry point panics instead of returning an
error value. -/
theorem C7_counterexample_assert_panics :
    instanceBuild docC7 =
      .error (.panic "assertion failed: count * stride <= data.len()") := by
  rfl

/-- C8 counterexample: an input that matches no known extension or content
signature makes `load_from_slice_with_reader` return an error of kind
`Unsupported`, not `InvalidData`, and this error does not come from the
reader callback (which was never invoked). -/
theorem C8_counterexample_unknown_is_unsupported :
    (∀ colladaCore readMtl reader,
      errKind (loadFromSliceWithReader {} colladaCore readMtl reader none none
        (bytesOfAscii "hello, world")) = some .unsupported) ∧
    IoErrorKind.unsupported ≠ .invalidData := by
  refine ⟨fun colladaCore readMtl reader => rfl, by decide⟩

set_option maxRecDepth 100000 in
/-- C1: the node world transform is never applied to emitted positions.
(i) `build_mesh`'s output is independent of the document's node list (and
hence of every node transform); (ii) on a document with unit 1 whose
geometry holds the vertices `(1,1,1), (2,2,2), (3,3,3)`, the emitted
positions are exactly those source values — not the
`(2x+1, 2y+2, 2z+3)` the claim requires of a
`<translate>(1,2,3)`-then-`<scale>(2,2,2)` node; (iii) the transform that
`calculate_transform` composes (and then never uses) for those two
elements *does* denote the claimed map `(x,y,z) ↦ (2x+1, 2y+2, 2z+3)`
under affine application. -/
theorem C1_world_transform_not_applied :
    (∀ nodes, buildMesh { docC1 with nodes := nodes } geoC1 =
      buildMesh docC1 geoC1) ∧
    (buildMesh docC1 geoC1).map (fun m => m.vertices) =
      .ok [(1, 1, 1), (2, 2, 2), (3, 3, 3)] ∧
    (∀ (ops : TrigOps) (x y z : ℚ),
      affineApply
          (calculateTransform ops [.translate (1, 2, 3), .scale (2, 2, 2)])
          (x, y, z) =
        (2 * x + 1, 2 * y + 2, 2 * z + 3)) := by
  refine ⟨fun nodes => rfl, ?_, ?_⟩
  · have h : (buildMesh docC1 geoC1).map (fun m => m.vertices) =
        .ok [((1 : ℚ) * 1, (1 : ℚ) * 1, (1 : ℚ) * 1),
          ((2 : ℚ) * 1, (2 : ℚ) * 1, (2 : ℚ) * 1),
          ((3 : ℚ) * 1, (3 : ℚ) * 1, (3 : ℚ) * 1)] := rfl
    rw [h]
    norm_num
  · intro ops x y z
    simp [calculateTransform, transformMatrix, Matrix4x4.translation,
      Matrix4x4.identity, Matrix4x4.new, Matrix4x4.mulMat, affineApply,
      List.foldl]

end MeshLoader
